import Mathlib

/-!
Shallow embedding of the `pulp_deb` APT-repository sync pipeline
(`plugins/pulp_deb/plugins/importers/sync.py`) and proofs about it.

Python byte strings are modelled as Lean `String`s (one `Char` per byte,
faithful for the ASCII data the sync handles); machine integers as `Nat`
with explicit reduction modulo `2 ^ 32` where overflow matters; fallible
code as `Except` / `Option`; the filesystem, the durable store, gnupg and
the keyserver (external collaborators) as explicit function parameters.
-/

/-! ## String and path helpers (Python `os.path` / `str` operations)

All helpers work on the character list underlying a `String` so that the
kernel can evaluate them on concrete inputs. -/

/-- Python `s[:n]` (character slicing; characters are bytes in the
byte-string model). -/
def str_take (s : String) (n : Nat) : String := String.mk (s.data.take n)

/-- Python `s[n:]`. -/
def str_drop (s : String) (n : Nat) : String := String.mk (s.data.drop n)

/-- Whether a string starts with the given prefix. -/
def str_startsWith (s pre : String) : Bool := pre.data.isPrefixOf s.data

/-- Whether a string ends with the given suffix. -/
def str_endsWith (s suf : String) : Bool := suf.data.isSuffixOf s.data

/-- Split a character list at every occurrence of `c` (Python
`s.split(c)` semantics: `n` separators yield `n + 1` pieces). -/
def splitChar (c : Char) : List Char → List (List Char)
  | [] => [[]]
  | x :: xs =>
    if x = c then [] :: splitChar c xs
    else
      match splitChar c xs with
      | [] => [[x]]
      | y :: ys => (x :: y) :: ys

/-- Python `s.strip('/')`: remove leading and trailing `/` characters. -/
def stripSlashes (s : String) : String :=
  String.mk (((s.data.dropWhile (· = '/')).reverse.dropWhile (· = '/')).reverse)

/-- Python `s.strip()`: remove leading and trailing whitespace. -/
def str_strip (s : String) : String :=
  String.mk (((s.data.dropWhile Char.isWhitespace).reverse.dropWhile
    Char.isWhitespace).reverse)

/-- Python `os.path.basename` (and `s.split('/')[-1]`): the part of the
path after the final `/` (the whole path when it has no `/`). -/
def os_path_basename (p : String) : String :=
  String.mk (((splitChar '/' p.data).getLast?).getD p.data)

/-- Python `os.path.join(a, b)` for two components: an absolute second
component discards the first; otherwise the components are glued with a
single `/` unless the first already ends in one (or is empty). -/
def os_path_join2 (a b : String) : String :=
  if str_startsWith b "/" then b
  else if a = "" then b
  else if str_endsWith a "/" then a ++ b
  else a ++ "/" ++ b

/-- Python `os.path.join(a, b, c)` (left-associated two-component joins). -/
def os_path_join3 (a b c : String) : String :=
  os_path_join2 (os_path_join2 a b) c

/-- `sync.split_or_none`: split a comma-separated config value into
stripped items, `none` for an empty/absent value. -/
def split_or_none (data : Option String) : Option (List String) :=
  match data with
  | some s =>
    if s = "" then none
    else some ((splitChar ',' s.data).map (fun piece => str_strip (String.mk piece)))
  | none => none

/-- Python `fingerprint.replace(' ', '')`: drop every space character. -/
def stripSpaces (s : String) : String :=
  String.mk (s.data.filter (· ≠ ' '))

/-! ## URL derivation (`RepoSync.__init__`, lines 69–114)

`urlparse.urljoin` is an external stdlib collaborator; it is modelled for
the only shape the sync uses. -/

/-- Modelled from the spec: Python `urlparse.urljoin(base, rel)` restricted
to the use in `RepoSync.__init__`, where `base` ends in `/` and `rel` is a
relative path reference (no scheme, no leading `/`, no `.`/`..` segments):
the reference is appended to the base. -/
def urljoin_rel (base rel : String) : String :=
  base ++ rel

/-- `RepoSync.__init__` line 69: `self.feed_url = config.get('feed').strip('/')`. -/
def feed_url_of (feed : String) : String :=
  stripSlashes feed

/-- `RepoSync.__init__` lines 86–89: per-distribution base URL
`urljoin(feed_url + '/', '/'.join(['dists', distribution]))`. -/
def feed_urls (feed distribution : String) : String :=
  urljoin_rel (feed_url_of feed ++ "/") (String.intercalate "/" ["dists", distribution])

/-- `RepoSync.__init__` lines 90–93: per-distribution Release URL
`urljoin(feed_urls[distribution] + '/', 'Release')`. -/
def release_urls (feed distribution : String) : String :=
  urljoin_rel (feed_urls feed distribution ++ "/") "Release"

/-- `RepoSync.__init__` line 112: the detached-signature URL is the Release
URL with `.gpg` appended. -/
def release_sig_url (feed distribution : String) : String :=
  release_urls feed distribution ++ ".gpg"

/-- `RepoSync.__init__` lines 82–85: per-distribution working-directory
path `os.path.join(working_dir, distribution, 'Release')`. -/
def release_files (working_dir distribution : String) : String :=
  os_path_join3 working_dir distribution "Release"

/-- The spec's words (§4.1): `releaseURL(d) = join(feed, "dists", d, "Release")`,
path components glued with single slashes. -/
def spec_releaseURL (feed distribution : String) : String :=
  String.intercalate "/" [feed_url_of feed, "dists", distribution, "Release"]

/-! ## Package units and checksums

`models.DebPackage` lives in `pulp_deb.plugins.db.models`, outside the
importer module; its fields are modelled from the spec (§3: name, version,
architecture, filename, three content digests; canonical identity = sha256). -/

/-- The result of `unit.calculate_deb_checksums(path)`: the three digests
freshly computed over the bytes at `path` (the digest computation itself is
an external collaborator). -/
structure DebChecksums where
  sha1 : String
  md5sum : String
  sha256 : String
  deriving Repr, DecidableEq

/-- Modelled from the spec: `models.DebPackage` (not under `src/`), §3 —
a binary package with name, version, architecture, relative filename,
the canonical `checksum` identity, and three optional digest fields
(`None` when upstream metadata did not declare them). -/
structure DebPackage where
  name : String
  version : String
  architecture : String
  filename : String
  checksum : String
  sha1 : Option String
  md5sum : Option String
  sha256 : Option String
  storage_path : String
  deriving Repr, DecidableEq

/-- Modelled from the spec: the unit key of a `DebPackage` — the identity
fields used to look the unit up in the durable store (§3: canonical
identity is the sha256 digest together with the nevra-like fields). -/
structure DebUnitKey where
  name : String
  version : String
  architecture : String
  checksum : String
  deriving Repr, DecidableEq

/-- `unit.unit_key` of a `DebPackage`. -/
def DebPackage.unit_key (u : DebPackage) : DebUnitKey :=
  ⟨u.name, u.version, u.architecture, u.checksum⟩

/-! ## `verify_unit_callback` (lines 36–46)

The filesystem and digest computation are modelled together:
`fs path = none` when `os.path.isfile(path)` is false, and
`fs path = some cks` when the file exists and
`calculate_deb_checksums` returns `cks` for its bytes. -/

/-- `sync.verify_unit_callback`: reject a unit whose storage path is not a
file or whose set digest fields disagree with the digests recomputed from
the on-disk bytes. -/
def verify_unit_callback (fs : String → Option DebChecksums) (unit : DebPackage) : Bool :=
  match fs unit.storage_path with
  | none => false
  | some checksums =>
    if unit.sha1.any (fun v => v ≠ checksums.sha1) then false
    else if unit.md5sum.any (fun v => v ≠ checksums.md5sum) then false
    else if unit.sha256.any (fun v => v ≠ checksums.sha256) then false
    else true

/-! ## `SaveDownloadedUnits` (lines 345–377) -/

/-- The payload of `PulpCodedTaskFailedException(DEBSYNC002, ...)` raised by
`SaveDownloadedUnits.verify_checksum` (error code and the five fields of
`DEBSYNC002`, lines 28–33). -/
structure SyncError where
  code : String
  repo_id : String
  feed_url : String
  filename : String
  checksum_expected : String
  checksum_actual : String
  deriving Repr, DecidableEq

/-- The repository/feed identifiers available to `SaveDownloadedUnits`
(`self.get_repo().repo_obj.repo_id` and `self.parent.feed_url`). -/
structure SyncEnv where
  repo_id : String
  feed_url : String
  deriving Repr, DecidableEq

/-- `SaveDownloadedUnits.verify_checksum(calculated, from_metadata, path)`:
raise `DEBSYNC002` when the freshly computed digest differs from the one
declared in metadata. -/
def verify_checksum (env : SyncEnv) (calculated from_metadata path : String) :
    Except SyncError Unit :=
  if calculated ≠ from_metadata then
    .error ⟨"DEBSYNC002", env.repo_id, env.feed_url, os_path_basename path,
            from_metadata, calculated⟩
  else .ok ()

/-- Lines 364–367: `if unit.sha1: verify_checksum(checksums['sha1'], unit.sha1, path)
else: unit.sha1 = checksums['sha1']`. -/
def check_or_set_sha1 (env : SyncEnv) (checksums : DebChecksums) (path : String)
    (unit : DebPackage) : Except SyncError DebPackage :=
  match unit.sha1 with
  | some v =>
    match verify_checksum env checksums.sha1 v path with
    | .error e => .error e
    | .ok _ => .ok unit
  | none => .ok { unit with sha1 := some checksums.sha1 }

/-- Lines 368–371: the same for `md5sum`. -/
def check_or_set_md5sum (env : SyncEnv) (checksums : DebChecksums) (path : String)
    (unit : DebPackage) : Except SyncError DebPackage :=
  match unit.md5sum with
  | some v =>
    match verify_checksum env checksums.md5sum v path with
    | .error e => .error e
    | .ok _ => .ok unit
  | none => .ok { unit with md5sum := some checksums.md5sum }

/-- Lines 372–375: the same for `sha256`. -/
def check_or_set_sha256 (env : SyncEnv) (checksums : DebChecksums) (path : String)
    (unit : DebPackage) : Except SyncError DebPackage :=
  match unit.sha256 with
  | some v =>
    match verify_checksum env checksums.sha256 v path with
    | .error e => .error e
    | .ok _ => .ok unit
  | none => .ok { unit with sha256 := some checksums.sha256 }

/-- The per-unit body of `SaveDownloadedUnits.process_main` (lines 363–376):
verify each digest field that is present against the freshly computed
checksums, backfill each absent one (the three if/else blocks, one per
digest field, in source order), then check the canonical `checksum`
against the (now set) sha256 field; the first failure aborts. Returns the
updated unit that `save_and_associate` receives. -/
def process_unit (env : SyncEnv) (checksums : DebChecksums) (path : String)
    (unit : DebPackage) : Except SyncError DebPackage :=
  match check_or_set_sha1 env checksums path unit with
  | .error e => .error e
  | .ok unit1 =>
    match check_or_set_md5sum env checksums path unit1 with
    | .error e => .error e
    | .ok unit2 =>
      match check_or_set_sha256 env checksums path unit2 with
      | .error e => .error e
      | .ok unit3 =>
        match verify_checksum env unit3.checksum (unit3.sha256.getD "") path with
        | .error e => .error e
        | .ok _ => .ok unit3

/-- `SaveDownloadedUnits.process_main` (lines 359–377): walk
`path_to_unit` in iteration order; each unit that passes its checks is
saved and associated immediately, and the first failing unit aborts the
loop with its error. Returns the list of `(path, unit)` pairs actually
passed to `save_and_associate`, and the error if one was raised. -/
def save_downloaded (env : SyncEnv) (cksOf : String → DebChecksums) :
    List (String × DebPackage) → List (String × DebPackage) × Option SyncError
  | [] => ([], none)
  | (path, unit) :: rest =>
    match process_unit env (cksOf path) path unit with
    | .error e => ([], some e)
    | .ok unit' =>
      let (saved, err) := save_downloaded env cksOf rest
      ((path, unit') :: saved, err)

/-! ## `SaveMetadataStep` (lines 380–399)

`unit_key_to_unit(k).id` is a durable-store lookup (external); it is the
parameter `idOf`. -/

/-- The membership set computed for one `(distribution, component)` pair by
`SaveMetadataStep.process_main`: start empty when `remove_missing` is set,
else from the component's persisted membership, then add the id of every
package identity accumulated for the component this sync. -/
def new_membership (remove_missing : Bool) (prev : Finset String)
    (keys : List DebUnitKey) (idOf : DebUnitKey → String) : Finset String :=
  (keys.map idOf).foldl (fun s i => insert i s)
    (if remove_missing then ∅ else prev)

/-! ## `ParsePackagesStep` (lines 284–313)

A package stanza of a `Packages` index is a field dictionary; only the
fields the sync reads are modelled, each `Option` because a stanza may
omit it (Python raises `KeyError` on access, caught and skipped). -/

/-- One stanza of a downloaded `Packages` index. -/
structure Stanza where
  SHA256 : Option String
  Filename : Option String
  pkg_name : Option String
  Version : Option String
  Architecture : Option String
  SHA1 : Option String
  MD5sum : Option String
  deriving Repr, DecidableEq

/-- Modelled from the spec: `models.DebPackage.from_packages_paragraph`
(not under `src/`), §4.3 — a stanza is accepted only if it carries all
required fields (name, version, architecture, filename, sha256); a stanza
missing one raises (`KeyError`/`ValueError`), which the caller catches.
The optional md5/sha1 digests carry over when declared. -/
def from_packages_paragraph (pkg : Stanza) : Option DebPackage :=
  match pkg.pkg_name, pkg.Version, pkg.Architecture, pkg.Filename, pkg.SHA256 with
  | some n, some v, some a, some f, some c =>
    some ⟨n, v, a, f, c, pkg.SHA1, pkg.MD5sum, some c, ""⟩
  | _, _, _, _, _ => none

/-- Insertion-ordered association-list lookup (a Python dict read). -/
def assocFind (l : List (String × α)) (k : String) : Option α :=
  (l.find? (fun p => p.1 = k)).map (fun p => p.2)

/-- The cross-stage parse state mutated by `ParsePackagesStep.process_main`:
the per-sync `units` dict keyed by sha256 (insertion order kept), the
`unit_relative_urls` dict, and the per-(distribution, component)
accumulated package-key lists. -/
structure ParseState where
  units : List (String × DebPackage)
  unit_relative_urls : List (String × String)
  component_packages : String → String → List DebUnitKey

/-- One downloaded `(component, architecture)` package index
(`repometa.iter_component_arch_binaries()` element): raw component name
and its stanzas. -/
structure ComponentArch where
  component : String
  packages : List Stanza

/-- The flattened iteration order of the triple loop in
`ParsePackagesStep.process_main`: for each distribution, for each
component-arch index, for each stanza. -/
def entries_of (dists : List (String × List ComponentArch)) :
    List (String × String × Stanza) :=
  dists.flatMap (fun dc =>
    dc.2.flatMap (fun ca => ca.packages.map (fun p => (dc.1, ca.component, p))))

/-- Point update of the `component_packages` double dict: append one unit
key to the list of `(distribution, component)`. -/
def append_comp_pkg (f : String → String → List DebUnitKey)
    (d c : String) (k : DebUnitKey) : String → String → List DebUnitKey :=
  fun d' c' => if d' = d ∧ c' = c then f d' c' ++ [k] else f d' c'

/-- The loop body of `ParsePackagesStep.process_main` (lines 299–312) for
one stanza: read `SHA256` and `Filename` (a missing one raises `KeyError`,
caught: skip), record the relative url, reuse the unit already created for
this digest or construct a fresh one (a construction failure is caught:
skip), and append the unit's key to the owning component's list. -/
def parse_stanza (st : ParseState) (distribution rawComponent : String)
    (pkg : Stanza) : ParseState :=
  match pkg.SHA256, pkg.Filename with
  | some checksum, some fname =>
    let st1 : ParseState :=
      { st with unit_relative_urls := (checksum, fname) :: st.unit_relative_urls }
    let unit? : Option DebPackage :=
      match assocFind st1.units checksum with
      | some unit => some unit
      | none => from_packages_paragraph pkg
    match unit? with
    | none => st1
    | some unit =>
      let units' := match assocFind st1.units checksum with
        | some _ => st1.units
        | none => st1.units ++ [(checksum, unit)]
      let component := os_path_basename rawComponent
      { units := units',
        unit_relative_urls := st1.unit_relative_urls,
        component_packages :=
          append_comp_pkg st1.component_packages distribution component unit.unit_key }
  | _, _ => st

/-- Fold of `parse_stanza` over the flattened entry list. -/
def parse_entries (st : ParseState) : List (String × String × Stanza) → ParseState
  | [] => st
  | (d, c, p) :: rest => parse_entries (parse_stanza st d c p) rest

/-- The initial parse state of one sync (fresh `units = {}` dict; the
component lists were initialised to `[]` by `ParseReleaseStep`). -/
def initParseState : ParseState :=
  ⟨[], [], fun _ _ => []⟩

/-- `ParsePackagesStep.process_main` over the downloaded indices of all
distributions. -/
def run_parse_packages (dists : List (String × List ComponentArch)) : ParseState :=
  parse_entries initParseState (entries_of dists)

/-- `self.parent.available_units = units.values()` (line 313). -/
def available_units (st : ParseState) : List DebPackage :=
  st.units.map (fun p => p.2)

/-! ## Removal-candidate sets and `OrphanRemovedUnits`
(lines 150–163, 244–264, 402–413) -/

/-- The three removal-candidate maps snapshotted in `RepoSync.__init__`
when `remove_missing` is set, modelled by their key sets. -/
structure CandidateSets where
  debs : Finset String
  comps : Finset String
  releases : Finset String

/-- `self.parent.deb_releases_to_check.pop(release_unit.id, None)` (line 253). -/
def confirm_release (s : CandidateSets) (relId : String) : CandidateSets :=
  { s with releases := s.releases.erase relId }

/-- `self.parent.deb_comps_to_check.pop(comp_unit.id, None)` (line 264). -/
def confirm_comp (s : CandidateSets) (compId : String) : CandidateSets :=
  { s with comps := s.comps.erase compId }

/-- `self.parent.debs_to_check.pop(unit.id, None)` (line 397). -/
def confirm_deb (s : CandidateSets) (debId : String) : CandidateSets :=
  { s with debs := s.debs.erase debId }

/-- The confirmations performed by `ParseReleaseStep.process_main`
(lines 235–264): per distribution, in order, the created-or-reused release
unit's id is popped, then each created-or-reused component unit's id.
`ds` lists, per distribution, the release unit id and its confirmed
component unit ids (the `get_or_create_and_associate` results, which are
durable-store lookups). -/
def parse_release_confirm (s : CandidateSets)
    (ds : List (String × List String)) : CandidateSets :=
  ds.foldl (fun s rc => rc.2.foldl confirm_comp (confirm_release s rc.1)) s

/-- One `for unit in to_check.values(): remove_unit(unit)` loop of
`OrphanRemovedUnits.process_main`: `remove_unit` (a durable-store call)
fails on the ids in `fails`; an exception propagates out of the loop, so
the ids after the first failing one are not removed. Returns the ids
actually removed, and whether an exception escaped. -/
def remove_units_loop (fails : String → Bool) : List String → List String × Bool
  | [] => ([], false)
  | i :: rest =>
    if fails i then ([], true)
    else
      let (r, e) := remove_units_loop fails rest
      (i :: r, e)

/-- `OrphanRemovedUnits.process_main` (lines 407–413): remove remaining
releases, then components, then packages; an exception in an earlier loop
prevents the later loops from running at all. Returns the removed
(releases, components, packages) ids and whether the step failed. -/
def orphan_process (fails : String → Bool)
    (relIds compIds debIds : List String) :
    (List String × List String × List String) × Bool :=
  let (rr, e1) := remove_units_loop fails relIds
  if e1 then ((rr, [], []), true)
  else
    let (rc, e2) := remove_units_loop fails compIds
    if e2 then ((rr, rc, []), true)
    else
      let (rd, e3) := remove_units_loop fails debIds
      ((rr, rc, rd), e3)

/-! ## GPG key handling in `ParseReleaseStep.verify_release_file`
(lines 199–211)

gnupg and the keyserver are external collaborators; a key store holds
`(fingerprint, key material)` pairs, the fingerprint as gnupg reports it
in `list_keys()` (no internal spaces). -/

/-- Modelled from the spec: a gnupg key store (§9 treats the key store as
an explicitly passed capability), as the list of its keys' fingerprints
and materials. -/
structure KeyStore where
  keys : List (String × String)

/-- Modelled from the spec: `shared_gpg.recv_keys(keyserver, fpr)` — fetch
the key with this fingerprint from the keyserver (a partial map from
fingerprint to key material) into the store; a fingerprint the keyserver
does not know leaves the store unchanged. -/
def recv_key (keyserver_db : String → Option String) (store : KeyStore)
    (fpr : String) : KeyStore :=
  match keyserver_db fpr with
  | some mat => ⟨store.keys ++ [(fpr, mat)]⟩
  | none => store

/-- Modelled from the spec: `shared_gpg.export_keys(fprs)` — the key
material of every stored key whose fingerprint is one of the requested
strings. -/
def export_keys (store : KeyStore) (fprs : List String) : List String :=
  (store.keys.filter (fun kv => kv.1 ∈ fprs)).map (fun kv => kv.2)

/-- Lines 205–210: for each configured fingerprint, strip spaces, and
fetch it from the keyserver into the shared store unless a key with that
fingerprint is already listed there. -/
def fetch_allowed_keys (keyserver_db : String → Option String)
    (shared : KeyStore) (fprs : List String) : KeyStore :=
  fprs.foldl
    (fun st f =>
      let fingerprint := stripSpaces f
      if fingerprint ∈ st.keys.map (fun kv => kv.1) then st
      else recv_key keyserver_db st fingerprint)
    shared

/-- Lines 203–211 as a whole: split the configured `allowed_keys` value,
run the fetch loop, then `gpg.import_keys(shared_gpg.export_keys(fingerprints))`
with the original (unstripped) fingerprint list. Returns the updated
shared store and the key materials imported into the ephemeral store. -/
def process_allowed_keys (keyserver_db : String → Option String)
    (shared : KeyStore) (allowed_keys_config : Option String) :
    KeyStore × List String :=
  let fingerprints := (split_or_none allowed_keys_config).getD []
  let shared' := fetch_allowed_keys keyserver_db shared fingerprints
  (shared', export_keys shared' fingerprints)

/-! ## MD5 and `generate_internal_storage_path` (lines 420–435)

`hashlib.md5` is the Python standard library's MD5; it is embedded as the
RFC 1321 algorithm over byte lists, 32-bit words as `Nat` reduced modulo
`2 ^ 32`. -/

/-- The 64 MD5 sine-derived round constants (RFC 1321). -/
def md5_K : List Nat :=
  [0xd76aa478, 0xe8c7b756, 0x242070db, 0xc1bdceee,
   0xf57c0faf, 0x4787c62a, 0xa8304613, 0xfd469501,
   0x698098d8, 0x8b44f7af, 0xffff5bb1, 0x895cd7be,
   0x6b901122, 0xfd987193, 0xa679438e, 0x49b40821,
   0xf61e2562, 0xc040b340, 0x265e5a51, 0xe9b6c7aa,
   0xd62f105d, 0x02441453, 0xd8a1e681, 0xe7d3fbc8,
   0x21e1cde6, 0xc33707d6, 0xf4d50d87, 0x455a14ed,
   0xa9e3e905, 0xfcefa3f8, 0x676f02d9, 0x8d2a4c8a,
   0xfffa3942, 0x8771f681, 0x6d9d6122, 0xfde5380c,
   0xa4beea44, 0x4bdecfa9, 0xf6bb4b60, 0xbebfbc70,
   0x289b7ec6, 0xeaa127fa, 0xd4ef3085, 0x04881d05,
   0xd9d4d039, 0xe6db99e5, 0x1fa27cf8, 0xc4ac5665,
   0xf4292244, 0x432aff97, 0xab9423a7, 0xfc93a039,
   0x655b59c3, 0x8f0ccc92, 0xffeff47d, 0x85845dd1,
   0x6fa87e4f, 0xfe2ce6e0, 0xa3014314, 0x4e0811a1,
   0xf7537e82, 0xbd3af235, 0x2ad7d2bb, 0xeb86d391]

/-- The 64 MD5 per-round left-rotation amounts (RFC 1321). -/
def md5_S : List Nat :=
  [7, 12, 17, 22, 7, 12, 17, 22, 7, 12, 17, 22, 7, 12, 17, 22,
   5, 9, 14, 20, 5, 9, 14, 20, 5, 9, 14, 20, 5, 9, 14, 20,
   4, 11, 16, 23, 4, 11, 16, 23, 4, 11, 16, 23, 4, 11, 16, 23,
   6, 10, 15, 21, 6, 10, 15, 21, 6, 10, 15, 21, 6, 10, 15, 21]

/-- The four 32-bit MD5 chaining words. -/
structure MD5State where
  a : Nat
  b : Nat
  c : Nat
  d : Nat

/-- `2 ^ 32`. -/
def w32 : Nat := 4294967296

/-- 32-bit left rotation of a word `x < 2 ^ 32`. -/
def rotl32 (x s : Nat) : Nat :=
  ((x <<< s) % w32) ||| (x >>> (32 - s))

/-- 32-bit complement of a word `x < 2 ^ 32`. -/
def md5_not32 (x : Nat) : Nat := 0xffffffff ^^^ x

/-- The MD5 initial chaining state. -/
def md5_init : MD5State := ⟨0x67452301, 0xefcdab89, 0x98badcfe, 0x10325476⟩

/-- Little-endian 32-bit word `g` of a 64-byte block. -/
def md5_word (block : List Nat) (g : Nat) : Nat :=
  block.getD (4 * g) 0 + 256 * block.getD (4 * g + 1) 0 +
    65536 * block.getD (4 * g + 2) 0 + 16777216 * block.getD (4 * g + 3) 0

/-- Round `i` (0 ≤ i < 64) of the MD5 compression function. -/
def md5_round (block : List Nat) (st : MD5State) (i : Nat) : MD5State :=
  let f :=
    if i < 16 then (st.b &&& st.c) ||| (md5_not32 st.b &&& st.d)
    else if i < 32 then (st.d &&& st.b) ||| (md5_not32 st.d &&& st.c)
    else if i < 48 then st.b ^^^ st.c ^^^ st.d
    else st.c ^^^ (st.b ||| md5_not32 st.d)
  let g :=
    if i < 16 then i
    else if i < 32 then (5 * i + 1) % 16
    else if i < 48 then (3 * i + 5) % 16
    else (7 * i) % 16
  let t := (f + st.a + md5_K.getD i 0 + md5_word block g) % w32
  ⟨st.d, (st.b + rotl32 t (md5_S.getD i 0)) % w32, st.b, st.c⟩

/-- MD5 compression of one 64-byte block into the chaining state. -/
def md5_compress (st : MD5State) (block : List Nat) : MD5State :=
  let r := (List.range 64).foldl (md5_round block) st
  ⟨(st.a + r.a) % w32, (st.b + r.b) % w32, (st.c + r.c) % w32, (st.d + r.d) % w32⟩

/-- Fold the compression function over the 64-byte blocks of a padded
message; `fuel` bounds the number of blocks (structural recursion so the
kernel can evaluate it; each step consumes at least one byte, so
`fuel = msg.length` always suffices). -/
def md5_blocksAux : Nat → MD5State → List Nat → MD5State
  | 0, st, _ => st
  | _ + 1, st, [] => st
  | fuel + 1, st, m :: rest =>
    md5_blocksAux fuel (md5_compress st ((m :: rest).take 64)) (rest.drop 63)

/-- Fold the compression function over the 64-byte blocks of a padded
message. -/
def md5_blocks (st : MD5State) (msg : List Nat) : MD5State :=
  md5_blocksAux msg.length st msg

/-- RFC 1321 padding: `0x80`, zeros to 56 mod 64, then the bit length as
a little-endian 64-bit quantity. -/
def md5_pad (msg : List Nat) : List Nat :=
  let len := msg.length
  let padlen := (56 + 64 - (len + 1) % 64) % 64
  let bitlen := (8 * len) % 18446744073709551616
  msg ++ [0x80] ++ List.replicate padlen 0 ++
    [bitlen % 256, bitlen / 256 % 256, bitlen / 65536 % 256,
     bitlen / 16777216 % 256, bitlen / 4294967296 % 256,
     bitlen / 1099511627776 % 256, bitlen / 281474976710656 % 256,
     bitlen / 72057594037927936 % 256]

/-- The four little-endian bytes of a 32-bit word. -/
def wordLE (w : Nat) : List Nat :=
  [w % 256, w / 256 % 256, w / 65536 % 256, w / 16777216 % 256]

/-- A Python 2 byte string as its list of byte values (faithful for the
ASCII filenames the sync handles). -/
def strBytes (s : String) : List Nat := s.data.map Char.toNat

/-- The 16-byte MD5 digest of a byte list. -/
def md5_digest_bytes (msg : List Nat) : List Nat :=
  let st := md5_blocks md5_init (md5_pad msg)
  wordLE st.a ++ wordLE st.b ++ wordLE st.c ++ wordLE st.d

/-- The lowercase hex digit for `n < 16`. -/
def hexChar (n : Nat) : Char := "0123456789abcdef".data.getD n '0'

/-- The two hex digits of a byte. -/
def hexByte (b : Nat) : List Char := [hexChar (b / 16 % 16), hexChar (b % 16)]

/-- `hashlib.md5(s).hexdigest()`. -/
def md5_hexdigest (s : String) : String :=
  String.mk ((md5_digest_bytes (strBytes s)).flatMap hexByte)

/-- `sync.generate_internal_storage_path` (lines 420–435): the two-level
directory path from the first two and next two hex characters of the MD5
of the base filename. -/
def generate_internal_storage_path (filename : String) : String :=
  let hash_digest := md5_hexdigest filename
  let part1 := str_take hash_digest 2
  let part2 := str_take (str_drop hash_digest 2) 2
  os_path_join2 part1 part2

/-- `CreateRequestsUnitsToDownload.process_main` lines 333–334: the
destination directory of a unit download,
`os.path.join(wdir, "packages", generate_internal_storage_path(os.path.basename(url)))`. -/
def package_dest_dir (wdir url : String) : String :=
  os_path_join3 wdir "packages"
    (generate_internal_storage_path (os_path_basename url))

/-! ## Derived notions used in the statements below -/

/-- A unit whose declared digest fields contradict the digests freshly
computed from the downloaded bytes (the condition under which
`SaveDownloadedUnits.verify_checksum` fires for that unit). -/
def digest_mismatch (cks : DebChecksums) (u : DebPackage) : Prop :=
  (∃ v, u.sha1 = some v ∧ v ≠ cks.sha1) ∨
  (∃ v, u.md5sum = some v ∧ v ≠ cks.md5sum) ∨
  (∃ v, u.sha256 = some v ∧ v ≠ cks.sha256)

instance (cks : DebChecksums) (u : DebPackage) : Decidable (digest_mismatch cks u) := by
  unfold digest_mismatch; infer_instance

/-- The unit created for the first stanza of the run that declares digest
`D` and parses successfully. -/
def firstUnitFor (es : List (String × String × Stanza)) (D : String) :
    Option DebPackage :=
  es.findSome? (fun e =>
    if e.2.2.SHA256 = some D then from_packages_paragraph e.2.2 else none)

/-- Well-formedness of the `units` dict as an association list: keys are
distinct and each unit is stored under its own checksum. -/
def UnitsInv (l : List (String × DebPackage)) : Prop :=
  (l.map Prod.fst).Nodup ∧ ∀ p ∈ l, p.2.checksum = p.1

/-! # Theorems -/

set_option maxRecDepth 10000

/-! ## String-helper lemmas -/

theorem str_startsWith_slash (s : String) :
    str_startsWith s "/" = true ↔ s.data.head? = some '/' := by
  unfold str_startsWith
  show (List.isPrefixOf ['/'] s.data) = true ↔ _
  cases h : s.data with
  | nil => decide
  | cons a t =>
    simp [List.isPrefixOf_cons₂]
    exact eq_comm

theorem str_endsWith_slash (s : String) :
    str_endsWith s "/" = true ↔ s.data.getLast? = some '/' := by
  rw [← List.head?_reverse]
  unfold str_endsWith
  rw [List.isSuffixOf]
  show (List.isPrefixOf ['/'] s.data.reverse) = true ↔ _
  cases h : s.data.reverse with
  | nil => simp
  | cons a t =>
    simp [List.isPrefixOf_cons₂]
    exact eq_comm

theorem data_eq_nil_iff (s : String) : s.data = [] ↔ s = "" := by
  rw [String.ext_iff]

theorem append_ne_empty_of_mid_slash (a b : String) : a ++ "/" ++ b ≠ "" := by
  intro h
  rw [String.ext_iff] at h
  simp [String.data_append] at h

theorem endsWith_append_slash (a b : String) (hb : b ≠ "")
    (h2 : str_endsWith b "/" = false) :
    str_endsWith (a ++ "/" ++ b) "/" = false := by
  rw [Bool.eq_false_iff]
  intro hc
  rw [str_endsWith_slash] at hc
  rw [String.data_append, String.data_append] at hc
  rw [List.getLast?_append_of_ne_nil] at hc
  · rw [Bool.eq_false_iff] at h2
    exact h2 (by rw [str_endsWith_slash]; exact hc)
  · intro hn
    exact hb ((data_eq_nil_iff b).mp hn)

theorem os_path_join2_eq (a b : String) (hb : str_startsWith b "/" = false)
    (ha : a ≠ "") (ha2 : str_endsWith a "/" = false) :
    os_path_join2 a b = a ++ "/" ++ b := by
  unfold os_path_join2
  rw [hb, ha2]
  simp [ha]

/-! ## C8: URL and working-directory derivation -/

/-- C8: for every distribution name `d` — multi-segment names such as
`stable/updates` included — the derived release URL equals the feed URL
joined with `dists`, `d` and `Release` with `d`'s internal separators
preserved, the signature URL is the release URL with `.gpg` appended, and
the per-distribution working-directory Release path likewise preserves the
separator. The side conditions keep `d` in the regime where the
`urljoin` model is faithful (a relative reference: no leading or trailing
slash, no scheme colon, no dot segments) and the working directory
well-formed. -/
theorem c8_release_url_derivation (feed wdir d : String)
    (h1 : str_startsWith d "/" = false) (h2 : str_endsWith d "/" = false)
    (h3 : d ≠ "") (h4 : wdir ≠ "") (h5 : str_endsWith wdir "/" = false)
    (h6 : ':' ∉ d.data)
    (h7 : ∀ seg ∈ splitChar '/' d.data, seg ≠ ['.'] ∧ seg ≠ ['.', '.']) :
    release_urls feed d = spec_releaseURL feed d ∧
    release_sig_url feed d = spec_releaseURL feed d ++ ".gpg" ∧
    release_files wdir d = wdir ++ "/" ++ d ++ "/Release" := by
  refine ⟨?_, ?_, ?_⟩
  · simp only [release_urls, spec_releaseURL, feed_urls, urljoin_rel, feed_url_of,
      String.intercalate, String.intercalate.go, String.append_assoc]
  · simp only [release_sig_url, release_urls, spec_releaseURL, feed_urls, urljoin_rel,
      feed_url_of, String.intercalate, String.intercalate.go, String.append_assoc]
  · rw [release_files, os_path_join3, os_path_join2_eq wdir d h1 h4 h5,
      os_path_join2_eq _ "Release" (by decide) (append_ne_empty_of_mid_slash wdir d)
        (endsWith_append_slash wdir d h3 h2)]
    rw [String.append_assoc (wdir ++ "/" ++ d) "/" "Release"]
    congr 1

/-- C8 witness: the derivation at the spec's own example
`d = stable/updates`. -/
theorem c8_release_url_derivation_witness :
    release_urls "http://example.com/deb" "stable/updates" =
      spec_releaseURL "http://example.com/deb" "stable/updates" ∧
    release_sig_url "http://example.com/deb" "stable/updates" =
      spec_releaseURL "http://example.com/deb" "stable/updates" ++ ".gpg" ∧
    release_files "/var/cache/pulp/wd" "stable/updates" =
      "/var/cache/pulp/wd" ++ "/" ++ "stable/updates" ++ "/Release" :=
  c8_release_url_derivation "http://example.com/deb" "/var/cache/pulp/wd"
    "stable/updates" (by decide) (by decide) (by decide) (by decide) (by decide)
    (by decide) (by decide)

/-! ## C10: `verify_unit_callback` -/

/-- C10: `verify_unit_callback` returns `true` for every unit whose storage
path is an existing file and whose `sha1`, `md5sum` and `sha256` fields are
all unset (no digest is checked), and returns `false` exactly when the file
is missing or some digest field that is set on the unit differs from the
value recomputed from the on-disk file. -/
theorem c10_verify_unit_callback (fs : String → Option DebChecksums)
    (u : DebPackage) :
    (∀ cks, fs u.storage_path = some cks → u.sha1 = none → u.md5sum = none →
       u.sha256 = none → verify_unit_callback fs u = true)
    ∧ (verify_unit_callback fs u = false ↔
        fs u.storage_path = none ∨
        ∃ cks, fs u.storage_path = some cks ∧ digest_mismatch cks u) := by
  unfold verify_unit_callback digest_mismatch
  cases hfs : fs u.storage_path with
  | none => simp
  | some cks =>
    cases h1 : u.sha1 <;> cases h2 : u.md5sum <;> cases h3 : u.sha256 <;>
      simp [Option.any] <;> tauto

/-- C10 witness: a unit whose file exists and whose digest fields are all
unset passes the callback. -/
theorem c10_verify_unit_callback_witness :
    verify_unit_callback (fun _ => some ⟨"a1", "b2", "c3"⟩)
      ⟨"pkg", "1.0", "amd64", "pool/p.deb", "c3", none, none, none, "/sp"⟩ = true :=
  (c10_verify_unit_callback (fun _ => some ⟨"a1", "b2", "c3"⟩)
      ⟨"pkg", "1.0", "amd64", "pool/p.deb", "c3", none, none, none, "/sp"⟩).1
    ⟨"a1", "b2", "c3"⟩ rfl rfl rfl rfl

/-! ## C3: membership recomputation in `SaveMetadataStep` -/

theorem foldl_insert_eq_union (l : List String) (init : Finset String) :
    l.foldl (fun s i => insert i s) init = init ∪ l.toFinset := by
  induction l generalizing init with
  | nil => simp
  | cons a t ih =>
    rw [List.foldl_cons, ih]
    ext x
    simp [or_comm, or_assoc, or_left_comm]

/-- C3: the membership set persisted for one `(distribution, component)`
pair equals the ids of the identities discovered this sync unioned with
the previously persisted membership when `remove_missing` is disabled, and
starts from the empty set (exactly the discovered ids) when it is enabled;
consequently, with `remove_missing` disabled a previously persisted member
is never removed. -/
theorem c3_membership_semantics (remove_missing : Bool) (prev : Finset String)
    (keys : List DebUnitKey) (idOf : DebUnitKey → String) :
    new_membership remove_missing prev keys idOf =
      (if remove_missing then ∅ else prev) ∪ (keys.map idOf).toFinset
    ∧ (remove_missing = false →
        prev ⊆ new_membership remove_missing prev keys idOf) := by
  constructor
  · rw [new_membership, foldl_insert_eq_union]
  · intro h
    rw [new_membership, foldl_insert_eq_union, h]
    simp

/-- C3 witness: union semantics at a concrete component with one retained
and one discovered package. -/
theorem c3_membership_semantics_witness :
    new_membership false {"old"} [⟨"n", "1", "amd64", "ck"⟩] (fun _ => "new") =
      (if false then ∅ else {"old"}) ∪
        ([(⟨"n", "1", "amd64", "ck"⟩ : DebUnitKey)].map (fun _ => "new")).toFinset
    ∧ {"old"} ⊆ new_membership false {"old"} [⟨"n", "1", "amd64", "ck"⟩]
        (fun _ => "new") :=
  ⟨(c3_membership_semantics false {"old"} [⟨"n", "1", "amd64", "ck"⟩]
      (fun _ => "new")).1,
   (c3_membership_semantics false {"old"} [⟨"n", "1", "amd64", "ck"⟩]
      (fun _ => "new")).2 rfl⟩

/-! ## C4 and C1: `SaveDownloadedUnits` -/

theorem verify_checksum_ok_iff (env : SyncEnv) (calcd meta path : String) :
    verify_checksum env calcd meta path = .ok () ↔ calcd = meta := by
  unfold verify_checksum
  split_ifs with h
  · simp [h]
  · simp [not_not.mp h]

theorem verify_checksum_error_iff (env : SyncEnv) (calcd meta path : String)
    (e : SyncError) :
    verify_checksum env calcd meta path = .error e ↔
      calcd ≠ meta ∧ e = ⟨"DEBSYNC002", env.repo_id, env.feed_url,
        os_path_basename path, meta, calcd⟩ := by
  unfold verify_checksum
  split_ifs with h <;> simp [h, eq_comm]

theorem check_sha1_ok_inv {env : SyncEnv} {cks : DebChecksums} {path : String}
    {u u' : DebPackage}
    (hok : check_or_set_sha1 env cks path u = .ok u') :
    u'.sha1 = some (u.sha1.getD cks.sha1) ∧ (∀ v, u.sha1 = some v → v = cks.sha1) ∧
    u'.md5sum = u.md5sum ∧ u'.sha256 = u.sha256 ∧ u'.checksum = u.checksum := by
  unfold check_or_set_sha1 at hok
  cases h : u.sha1 with
  | none =>
    rw [h] at hok
    simp at hok
    subst hok
    simp [h]
  | some v =>
    rw [h] at hok
    dsimp only at hok
    cases hv : verify_checksum env cks.sha1 v path with
    | error e => rw [hv] at hok; exact absurd hok (by simp)
    | ok x =>
      rw [hv] at hok
      simp at hok
      subst hok
      have hveq : cks.sha1 = v := by
        have := hv
        cases x
        exact (verify_checksum_ok_iff env cks.sha1 v path).mp this
      simp [h, hveq]

theorem check_sha1_err_fwd {env : SyncEnv} {cks : DebChecksums} {path : String}
    {u : DebPackage} {v : String} (h : u.sha1 = some v) (hne : cks.sha1 ≠ v) :
    check_or_set_sha1 env cks path u = .error
      ⟨"DEBSYNC002", env.repo_id, env.feed_url, os_path_basename path, v, cks.sha1⟩ := by
  simp [check_or_set_sha1, h, verify_checksum, hne]

theorem check_sha1_pass {env : SyncEnv} {cks : DebChecksums} {path : String}
    {u : DebPackage} (h : u.sha1 = none ∨ u.sha1 = some cks.sha1) :
    ∃ u1, check_or_set_sha1 env cks path u = .ok u1 ∧ u1.md5sum = u.md5sum ∧
      u1.sha256 = u.sha256 ∧ u1.checksum = u.checksum := by
  rcases h with h | h
  · exact ⟨{ u with sha1 := some cks.sha1 }, by simp [check_or_set_sha1, h],
      rfl, rfl, rfl⟩
  · exact ⟨u, by simp [check_or_set_sha1, h, verify_checksum], rfl, rfl, rfl⟩

theorem check_sha1_error_inv {env : SyncEnv} {cks : DebChecksums} {path : String}
    {u : DebPackage} {e : SyncError}
    (he : check_or_set_sha1 env cks path u = .error e) :
    ∃ v, u.sha1 = some v ∧ cks.sha1 ≠ v ∧
      e = ⟨"DEBSYNC002", env.repo_id, env.feed_url, os_path_basename path,
        v, cks.sha1⟩ := by
  unfold check_or_set_sha1 at he
  cases h : u.sha1 with
  | none => rw [h] at he; exact absurd he (by simp)
  | some v =>
    rw [h] at he
    dsimp only at he
    cases hv : verify_checksum env cks.sha1 v path with
    | ok x => rw [hv] at he; exact absurd he (by simp)
    | error e1 =>
      rw [hv] at he
      simp at he
      obtain ⟨hne, he1⟩ := (verify_checksum_error_iff env cks.sha1 v path e1).mp hv
      exact ⟨v, rfl, hne, by rw [← he, he1]⟩

theorem check_md5sum_ok_inv {env : SyncEnv} {cks : DebChecksums} {path : String}
    {u u' : DebPackage}
    (hok : check_or_set_md5sum env cks path u = .ok u') :
    u'.md5sum = some (u.md5sum.getD cks.md5sum) ∧ (∀ v, u.md5sum = some v → v = cks.md5sum) ∧
    u'.sha1 = u.sha1 ∧ u'.sha256 = u.sha256 ∧ u'.checksum = u.checksum := by
  unfold check_or_set_md5sum at hok
  cases h : u.md5sum with
  | none =>
    rw [h] at hok
    simp at hok
    subst hok
    simp [h]
  | some v =>
    rw [h] at hok
    dsimp only at hok
    cases hv : verify_checksum env cks.md5sum v path with
    | error e => rw [hv] at hok; exact absurd hok (by simp)
    | ok x =>
      rw [hv] at hok
      simp at hok
      subst hok
      have hveq : cks.md5sum = v := by
        have := hv
        cases x
        exact (verify_checksum_ok_iff env cks.md5sum v path).mp this
      simp [h, hveq]

theorem check_sha256_ok_inv {env : SyncEnv} {cks : DebChecksums} {path : String}
    {u u' : DebPackage}
    (hok : check_or_set_sha256 env cks path u = .ok u') :
    u'.sha256 = some (u.sha256.getD cks.sha256) ∧ (∀ v, u.sha256 = some v → v = cks.sha256) ∧
    u'.sha1 = u.sha1 ∧ u'.md5sum = u.md5sum ∧ u'.checksum = u.checksum := by
  unfold check_or_set_sha256 at hok
  cases h : u.sha256 with
  | none =>
    rw [h] at hok
    simp at hok
    subst hok
    simp [h]
  | some v =>
    rw [h] at hok
    dsimp only at hok
    cases hv : verify_checksum env cks.sha256 v path with
    | error e => rw [hv] at hok; exact absurd hok (by simp)
    | ok x =>
      rw [hv] at hok
      simp at hok
      subst hok
      have hveq : cks.sha256 = v := by
        have := hv
        cases x
        exact (verify_checksum_ok_iff env cks.sha256 v path).mp this
      simp [h, hveq]

theorem check_md5sum_err_fwd {env : SyncEnv} {cks : DebChecksums} {path : String}
    {u : DebPackage} {v : String} (h : u.md5sum = some v) (hne : cks.md5sum ≠ v) :
    check_or_set_md5sum env cks path u = .error
      ⟨"DEBSYNC002", env.repo_id, env.feed_url, os_path_basename path, v, cks.md5sum⟩ := by
  simp [check_or_set_md5sum, h, verify_checksum, hne]

theorem check_sha256_err_fwd {env : SyncEnv} {cks : DebChecksums} {path : String}
    {u : DebPackage} {v : String} (h : u.sha256 = some v) (hne : cks.sha256 ≠ v) :
    check_or_set_sha256 env cks path u = .error
      ⟨"DEBSYNC002", env.repo_id, env.feed_url, os_path_basename path, v, cks.sha256⟩ := by
  simp [check_or_set_sha256, h, verify_checksum, hne]

theorem check_md5sum_pass {env : SyncEnv} {cks : DebChecksums} {path : String}
    {u : DebPackage} (h : u.md5sum = none ∨ u.md5sum = some cks.md5sum) :
    ∃ u1, check_or_set_md5sum env cks path u = .ok u1 ∧ u1.sha1 = u.sha1 ∧
      u1.sha256 = u.sha256 ∧ u1.checksum = u.checksum := by
  rcases h with h | h
  · exact ⟨{ u with md5sum := some cks.md5sum }, by simp [check_or_set_md5sum, h],
      rfl, rfl, rfl⟩
  · exact ⟨u, by simp [check_or_set_md5sum, h, verify_checksum], rfl, rfl, rfl⟩

/-- C4: when persisting a downloaded unit, each of the three digest fields
behaves as follows — a present field is compared against the digest freshly
computed from the downloaded bytes and never overwritten (on success its
value equals the computed one), a mismatch raises a fatal
`ChecksumMismatchError` (`DEBSYNC002` naming repository, feed, filename,
expected and actual values), and an absent field is backfilled with the
computed value. The later-field cases require the earlier fields to pass,
matching the source's check order (sha1, md5sum, sha256). -/
theorem c4_digest_field_handling (env : SyncEnv) (cks : DebChecksums) (path : String)
    (u : DebPackage) :
    (∀ u', process_unit env cks path u = Except.ok u' →
        u'.sha1 = some (u.sha1.getD cks.sha1)
      ∧ u'.md5sum = some (u.md5sum.getD cks.md5sum)
      ∧ u'.sha256 = some (u.sha256.getD cks.sha256)
      ∧ (∀ v, u.sha1 = some v → v = cks.sha1)
      ∧ (∀ v, u.md5sum = some v → v = cks.md5sum)
      ∧ (∀ v, u.sha256 = some v → v = cks.sha256))
    ∧ (∀ v, u.sha1 = some v → cks.sha1 ≠ v →
        process_unit env cks path u = .error
          ⟨"DEBSYNC002", env.repo_id, env.feed_url, os_path_basename path, v, cks.sha1⟩)
    ∧ (∀ v, u.md5sum = some v → cks.md5sum ≠ v →
        (u.sha1 = none ∨ u.sha1 = some cks.sha1) →
        process_unit env cks path u = .error
          ⟨"DEBSYNC002", env.repo_id, env.feed_url, os_path_basename path, v, cks.md5sum⟩)
    ∧ (∀ v, u.sha256 = some v → cks.sha256 ≠ v →
        (u.sha1 = none ∨ u.sha1 = some cks.sha1) →
        (u.md5sum = none ∨ u.md5sum = some cks.md5sum) →
        process_unit env cks path u = .error
          ⟨"DEBSYNC002", env.repo_id, env.feed_url, os_path_basename path, v, cks.sha256⟩) := by
  refine ⟨?_, ?_, ?_, ?_⟩
  · intro u' hok
    unfold process_unit at hok
    cases hs1 : check_or_set_sha1 env cks path u with
    | error e => rw [hs1] at hok; exact absurd hok (by simp)
    | ok u1 =>
      rw [hs1] at hok
      dsimp only at hok
      obtain ⟨f1, p1, m1, s1, c1⟩ := check_sha1_ok_inv hs1
      cases hs2 : check_or_set_md5sum env cks path u1 with
      | error e => rw [hs2] at hok; exact absurd hok (by simp)
      | ok u2 =>
        rw [hs2] at hok
        dsimp only at hok
        obtain ⟨f2, p2, a2, s2, c2⟩ := check_md5sum_ok_inv hs2
        cases hs3 : check_or_set_sha256 env cks path u2 with
        | error e => rw [hs3] at hok; exact absurd hok (by simp)
        | ok u3 =>
          rw [hs3] at hok
          dsimp only at hok
          obtain ⟨f3, p3, a3, m3, c3⟩ := check_sha256_ok_inv hs3
          cases hv : verify_checksum env u3.checksum (u3.sha256.getD "") path with
          | error e => rw [hv] at hok; exact absurd hok (by simp)
          | ok x =>
            rw [hv] at hok
            simp at hok
            subst hok
            refine ⟨?_, ?_, ?_, ?_, ?_, ?_⟩
            · rw [a3, a2, f1]
            · rw [m3, f2, m1]
            · rw [f3, s2, s1]
            · exact p1
            · intro v hv'
              exact p2 v (by rw [m1, hv'])
            · intro v hv'
              exact p3 v (by rw [s2, s1, hv'])
  · intro v h hne
    unfold process_unit
    rw [check_sha1_err_fwd h hne]
  · intro v h hne hpass
    unfold process_unit
    obtain ⟨u1, h1ok, hm, hs, hc⟩ := @check_sha1_pass env cks path u hpass
    rw [h1ok]
    dsimp only
    rw [check_md5sum_err_fwd (by rw [hm, h]) hne]
  · intro v h hne hpass1 hpass2
    unfold process_unit
    obtain ⟨u1, h1ok, hm, hs, hc⟩ := @check_sha1_pass env cks path u hpass1
    rw [h1ok]
    dsimp only
    obtain ⟨u2, h2ok, ha2, hs2, hc2⟩ := @check_md5sum_pass env cks path u1
      (by rw [hm]; exact hpass2)
    rw [h2ok]
    dsimp only
    rw [check_sha256_err_fwd (by rw [hs2, hs, h]) hne]

theorem check_md5sum_error_inv {env : SyncEnv} {cks : DebChecksums} {path : String}
    {u : DebPackage} {e : SyncError}
    (he : check_or_set_md5sum env cks path u = .error e) :
    ∃ v, u.md5sum = some v ∧ cks.md5sum ≠ v ∧
      e = ⟨"DEBSYNC002", env.repo_id, env.feed_url, os_path_basename path,
        v, cks.md5sum⟩ := by
  unfold check_or_set_md5sum at he
  cases h : u.md5sum with
  | none => rw [h] at he; exact absurd he (by simp)
  | some v =>
    rw [h] at he
    dsimp only at he
    cases hv : verify_checksum env cks.md5sum v path with
    | ok x => rw [hv] at he; exact absurd he (by simp)
    | error e1 =>
      rw [hv] at he
      simp at he
      obtain ⟨hne, he1⟩ := (verify_checksum_error_iff env cks.md5sum v path e1).mp hv
      exact ⟨v, rfl, hne, by rw [← he, he1]⟩

theorem check_sha256_error_inv {env : SyncEnv} {cks : DebChecksums} {path : String}
    {u : DebPackage} {e : SyncError}
    (he : check_or_set_sha256 env cks path u = .error e) :
    ∃ v, u.sha256 = some v ∧ cks.sha256 ≠ v ∧
      e = ⟨"DEBSYNC002", env.repo_id, env.feed_url, os_path_basename path,
        v, cks.sha256⟩ := by
  unfold check_or_set_sha256 at he
  cases h : u.sha256 with
  | none => rw [h] at he; exact absurd he (by simp)
  | some v =>
    rw [h] at he
    dsimp only at he
    cases hv : verify_checksum env cks.sha256 v path with
    | ok x => rw [hv] at he; exact absurd he (by simp)
    | error e1 =>
      rw [hv] at he
      simp at he
      obtain ⟨hne, he1⟩ := (verify_checksum_error_iff env cks.sha256 v path e1).mp hv
      exact ⟨v, rfl, hne, by rw [← he, he1]⟩

theorem process_unit_error_shape {env : SyncEnv} {cks : DebChecksums}
    {path : String} {u : DebPackage} {e : SyncError}
    (he : process_unit env cks path u = .error e) :
    e.code = "DEBSYNC002" ∧ e.repo_id = env.repo_id ∧ e.feed_url = env.feed_url ∧
    e.filename = os_path_basename path ∧ e.checksum_expected ≠ e.checksum_actual := by
  unfold process_unit at he
  cases hs1 : check_or_set_sha1 env cks path u with
  | error e1 =>
    rw [hs1] at he
    simp at he
    obtain ⟨v, _, hne, hsh⟩ := check_sha1_error_inv hs1
    subst he
    rw [hsh]
    exact ⟨rfl, rfl, rfl, rfl, fun hc => hne hc.symm⟩
  | ok u1 =>
    rw [hs1] at he
    dsimp only at he
    cases hs2 : check_or_set_md5sum env cks path u1 with
    | error e2 =>
      rw [hs2] at he
      simp at he
      obtain ⟨v, _, hne, hsh⟩ := check_md5sum_error_inv hs2
      subst he
      rw [hsh]
      exact ⟨rfl, rfl, rfl, rfl, fun hc => hne hc.symm⟩
    | ok u2 =>
      rw [hs2] at he
      dsimp only at he
      cases hs3 : check_or_set_sha256 env cks path u2 with
      | error e3 =>
        rw [hs3] at he
        simp at he
        obtain ⟨v, _, hne, hsh⟩ := check_sha256_error_inv hs3
        subst he
        rw [hsh]
        exact ⟨rfl, rfl, rfl, rfl, fun hc => hne hc.symm⟩
      | ok u3 =>
        rw [hs3] at he
        dsimp only at he
        cases hv : verify_checksum env u3.checksum (u3.sha256.getD "") path with
        | error e4 =>
          rw [hv] at he
          simp at he
          obtain ⟨hne, hsh⟩ := (verify_checksum_error_iff env u3.checksum
            (u3.sha256.getD "") path e4).mp hv
          subst he
          rw [hsh]
          exact ⟨rfl, rfl, rfl, rfl, fun hc => hne hc.symm⟩
        | ok x =>
          rw [hv] at he
          exact absurd he (by simp)

theorem process_unit_ok_inv {env : SyncEnv} {cks : DebChecksums} {path : String}
    {u u' : DebPackage} (hok : process_unit env cks path u = Except.ok u') :
    u'.sha1 = some (u.sha1.getD cks.sha1)
    ∧ u'.md5sum = some (u.md5sum.getD cks.md5sum)
    ∧ u'.sha256 = some (u.sha256.getD cks.sha256)
    ∧ (∀ v, u.sha1 = some v → v = cks.sha1)
    ∧ (∀ v, u.md5sum = some v → v = cks.md5sum)
    ∧ (∀ v, u.sha256 = some v → v = cks.sha256) := by
  unfold process_unit at hok
  cases hs1 : check_or_set_sha1 env cks path u with
  | error e => rw [hs1] at hok; exact absurd hok (by simp)
  | ok u1 =>
    rw [hs1] at hok
    dsimp only at hok
    obtain ⟨f1, p1, m1, s1, c1⟩ := check_sha1_ok_inv hs1
    cases hs2 : check_or_set_md5sum env cks path u1 with
    | error e => rw [hs2] at hok; exact absurd hok (by simp)
    | ok u2 =>
      rw [hs2] at hok
      dsimp only at hok
      obtain ⟨f2, p2, a2, s2, c2⟩ := check_md5sum_ok_inv hs2
      cases hs3 : check_or_set_sha256 env cks path u2 with
      | error e => rw [hs3] at hok; exact absurd hok (by simp)
      | ok u3 =>
        rw [hs3] at hok
        dsimp only at hok
        obtain ⟨f3, p3, a3, m3, c3⟩ := check_sha256_ok_inv hs3
        cases hv : verify_checksum env u3.checksum (u3.sha256.getD "") path with
        | error e => rw [hv] at hok; exact absurd hok (by simp)
        | ok x =>
          rw [hv] at hok
          simp at hok
          subst hok
          refine ⟨?_, ?_, ?_, ?_, ?_, ?_⟩
          · rw [a3, a2, f1]
          · rw [m3, f2, m1]
          · rw [f3, s2, s1]
          · exact p1
          · intro v hv'
            exact p2 v (by rw [m1, hv'])
          · intro v hv'
            exact p3 v (by rw [s2, s1, hv'])

theorem process_unit_ne_ok_of_mismatch {env : SyncEnv} {cks : DebChecksums}
    {path : String} {u : DebPackage} (hm : digest_mismatch cks u) (u' : DebPackage) :
    process_unit env cks path u ≠ Except.ok u' := by
  intro hok
  obtain ⟨_, _, _, p1, p2, p3⟩ := process_unit_ok_inv hok
  rcases hm with ⟨v, hv, hne⟩ | ⟨v, hv, hne⟩ | ⟨v, hv, hne⟩
  · exact hne (p1 v hv)
  · exact hne (p2 v hv)
  · exact hne (p3 v hv)

theorem save_downloaded_error_of_mismatch {env : SyncEnv}
    {cksOf : String → DebChecksums} {pairs : List (String × DebPackage)}
    (hm : ∃ pu ∈ pairs, digest_mismatch (cksOf pu.1) pu.2) :
    ((save_downloaded env cksOf pairs).2).isSome := by
  induction pairs with
  | nil => simp at hm
  | cons hd tl ih =>
    obtain ⟨pu, hmem, hmis⟩ := hm
    unfold save_downloaded
    cases hp : process_unit env (cksOf hd.1) hd.1 hd.2 with
    | error e => simp
    | ok u' =>
      dsimp only
      rcases List.mem_cons.mp hmem with heq | htl
      · subst heq
        exact absurd hp (process_unit_ne_ok_of_mismatch hmis u')
      · exact ih ⟨pu, htl, hmis⟩

theorem save_downloaded_err_split {env : SyncEnv}
    {cksOf : String → DebChecksums} {pairs : List (String × DebPackage)}
    {e : SyncError} (herr : (save_downloaded env cksOf pairs).2 = some e) :
    ∃ pre fail post, pairs = pre ++ fail :: post ∧
      process_unit env (cksOf fail.1) fail.1 fail.2 = .error e ∧
      (save_downloaded env cksOf pairs).1.map Prod.fst = pre.map Prod.fst := by
  induction pairs with
  | nil => simp [save_downloaded] at herr
  | cons hd tl ih =>
    unfold save_downloaded at herr ⊢
    cases hp : process_unit env (cksOf hd.1) hd.1 hd.2 with
    | error e0 =>
      rw [hp] at herr
      dsimp only at herr ⊢
      simp at herr
      subst herr
      exact ⟨[], hd, tl, rfl, hp, by simp⟩
    | ok u' =>
      rw [hp] at herr
      dsimp only at herr ⊢
      cases h2 : save_downloaded env cksOf tl with
      | mk saved errv =>
        dsimp only at herr ⊢
        obtain ⟨pre, fail, post, hsplit, hpf, hmap⟩ := ih herr
        rw [h2] at hmap
        refine ⟨hd :: pre, fail, post, by rw [hsplit]; simp, hpf, ?_⟩
        simpa using hmap

/-- C1 (amended): a declared-digest mismatch in the batch makes
`SaveDownloadedUnits.process_main` abort with a `DEBSYNC002` error naming
the repository id, the feed URL, the offending filename and the expected
and actual checksums, and `save_and_associate` is called for no unit at or
after the first failing unit in iteration order — only for the units
processed strictly before it (the original claim's "no unit from that run
is associated" fails on the code, see the counterexample). -/
theorem c1_checksum_abort (env : SyncEnv) (cksOf : String → DebChecksums)
    (pairs : List (String × DebPackage)) (hnd : (pairs.map Prod.fst).Nodup) :
    ((∃ pu ∈ pairs, digest_mismatch (cksOf pu.1) pu.2) →
       ((save_downloaded env cksOf pairs).2).isSome)
    ∧ (∀ e, (save_downloaded env cksOf pairs).2 = some e →
        e.code = "DEBSYNC002" ∧ e.repo_id = env.repo_id ∧ e.feed_url = env.feed_url ∧
        e.checksum_expected ≠ e.checksum_actual ∧
        ∃ pre fail post, pairs = pre ++ fail :: post ∧
          e.filename = os_path_basename fail.1 ∧
          process_unit env (cksOf fail.1) fail.1 fail.2 = .error e ∧
          (save_downloaded env cksOf pairs).1.map Prod.fst = pre.map Prod.fst ∧
          ∀ pu ∈ fail :: post, pu.1 ∉ (save_downloaded env cksOf pairs).1.map Prod.fst) := by
  constructor
  · exact save_downloaded_error_of_mismatch
  · intro e herr
    obtain ⟨pre, fail, post, hsplit, hpf, hmap⟩ := save_downloaded_err_split herr
    obtain ⟨hc, hr, hf, hfn, hne⟩ := process_unit_error_shape hpf
    refine ⟨hc, hr, hf, hne, pre, fail, post, hsplit, hfn, hpf, hmap, ?_⟩
    intro pu hpu hmem
    rw [hmap] at hmem
    rw [hsplit, List.map_append] at hnd
    have hdisj := (List.nodup_append.mp hnd).2.2
    exact hdisj hmem (List.mem_map.mpr ⟨pu, hpu, rfl⟩)

/-- C1 witness: a two-unit batch whose second unit's declared sha256
contradicts the computed digests makes the save step fail. -/
theorem c1_checksum_abort_witness :
    ((save_downloaded ⟨"repo1", "http://feed"⟩ (fun _ => ⟨"s1", "m1", "h1"⟩)
        [("a/p1.deb", ⟨"pg", "1", "amd64", "p1.deb", "h1",
            some "s1", some "m1", some "h1", ""⟩),
         ("b/p2.deb", ⟨"pb", "2", "amd64", "p2.deb", "BAD",
            none, none, some "BAD", ""⟩)]).2).isSome :=
  (c1_checksum_abort ⟨"repo1", "http://feed"⟩ (fun _ => ⟨"s1", "m1", "h1"⟩)
    [("a/p1.deb", ⟨"pg", "1", "amd64", "p1.deb", "h1",
        some "s1", some "m1", some "h1", ""⟩),
     ("b/p2.deb", ⟨"pb", "2", "amd64", "p2.deb", "BAD",
        none, none, some "BAD", ""⟩)] (by decide)).1
    ⟨("b/p2.deb", ⟨"pb", "2", "amd64", "p2.deb", "BAD",
        none, none, some "BAD", ""⟩), by decide, by decide⟩

/-- C1 counterexample to the claim as stated: in that same batch the sync
aborts (an error is raised) yet `save_and_associate` was called for the
first unit — the associated list is not empty, contradicting "no unit from
that run is associated". -/
theorem c1_checksum_abort_counterexample :
    ((save_downloaded ⟨"repo1", "http://feed"⟩ (fun _ => ⟨"s1", "m1", "h1"⟩)
        [("a/p1.deb", ⟨"pg", "1", "amd64", "p1.deb", "h1",
            some "s1", some "m1", some "h1", ""⟩),
         ("b/p2.deb", ⟨"pb", "2", "amd64", "p2.deb", "BAD",
            none, none, some "BAD", ""⟩)]).2).isSome = true
    ∧ (save_downloaded ⟨"repo1", "http://feed"⟩ (fun _ => ⟨"s1", "m1", "h1"⟩)
        [("a/p1.deb", ⟨"pg", "1", "amd64", "p1.deb", "h1",
            some "s1", some "m1", some "h1", ""⟩),
         ("b/p2.deb", ⟨"pb", "2", "amd64", "p2.deb", "BAD",
            none, none, some "BAD", ""⟩)]).1 ≠ [] := by decide

/-- C4 witness: a unit with a matching present sha1, an absent md5sum and a
mismatching present sha256 yields the sha256 `DEBSYNC002` error at a
concrete input. -/
theorem c4_digest_field_handling_witness :
    process_unit ⟨"r", "f"⟩ ⟨"s1", "m5", "h2"⟩ "p/d.deb"
        ⟨"n", "1", "amd64", "d.deb", "ck", some "s1", none, some "WRONG", ""⟩ =
      .error ⟨"DEBSYNC002", "r", "f", "d.deb", "WRONG", "h2"⟩ :=
  (c4_digest_field_handling ⟨"r", "f"⟩ ⟨"s1", "m5", "h2"⟩ "p/d.deb"
      ⟨"n", "1", "amd64", "d.deb", "ck", some "s1", none, some "WRONG", ""⟩).2.2.2
    "WRONG" rfl (by decide) (Or.inr rfl) (Or.inl rfl)

/-! ## C6 and C5: `OrphanRemovedUnits` and the removal-candidate sets -/

theorem remove_units_loop_eq (fails : String → Bool) (l : List String) :
    remove_units_loop fails l = (l.takeWhile (fun i => ! fails i), l.any fails) := by
  induction l with
  | nil => rfl
  | cons a t ih =>
    unfold remove_units_loop
    by_cases h : fails a = true
    · simp [h]
    · simp only [Bool.not_eq_true] at h
      simp [h, ih]

/-- C6 (amended): orphan deletion is NOT best-effort per entity — the step
removes remaining releases, then components, then packages, and a
`remove_unit` failure propagates immediately: candidates after the failing
one in iteration order (and all candidates of the later categories) are
not deleted, candidates already deleted stay deleted, and the step fails
(fatal to the sync). This characterization determines the step's outcome
completely. -/
theorem c6_orphan_removal_characterization (fails : String → Bool) (relIds compIds debIds : List String) :
    orphan_process fails relIds compIds debIds =
      if relIds.any fails then
        ((relIds.takeWhile (fun i => ! fails i), [], []), true)
      else if compIds.any fails then
        ((relIds, compIds.takeWhile (fun i => ! fails i), []), true)
      else
        ((relIds, compIds, debIds.takeWhile (fun i => ! fails i)),
          debIds.any fails) := by
  unfold orphan_process
  rw [remove_units_loop_eq, remove_units_loop_eq, remove_units_loop_eq]
  by_cases h1 : relIds.any fails = true
  · simp [h1]
  · rw [Bool.not_eq_true] at h1
    have e1 : relIds.takeWhile (fun i => ! fails i) = relIds :=
      List.takeWhile_eq_self_iff.mpr (by
        intro a ha
        simp [List.any_eq_false.mp h1 a ha])
    by_cases h2 : compIds.any fails = true
    · simp [h1, h2, e1]
    · rw [Bool.not_eq_true] at h2
      have e2 : compIds.takeWhile (fun i => ! fails i) = compIds :=
        List.takeWhile_eq_self_iff.mpr (by
          intro a ha
          simp [List.any_eq_false.mp h2 a ha])
      simp [h1, h2, e1, e2]

/-- C6 counterexample to the claim as stated: with two release candidates
whose first deletion fails, the second candidate (`r2`) is not removed and
the step reports failure — a failure on one candidate does prevent the
deletion of the others and is fatal. -/
theorem c6_orphan_removal_counterexample :
    orphan_process (fun i => i == "bad") ["bad", "r2"] ["c1"] ["d1"] =
      (([], [], []), true)
    ∧ "r2" ∉ (orphan_process (fun i => i == "bad")
        ["bad", "r2"] ["c1"] ["d1"]).1.1 := by decide

theorem comps_foldl_releases (cs : List String) (s : CandidateSets) :
    (cs.foldl confirm_comp s).releases = s.releases := by
  induction cs generalizing s with
  | nil => rfl
  | cons a t ih => rw [List.foldl_cons, ih]; rfl

theorem comps_foldl_comps_subset (cs : List String) (s : CandidateSets) :
    (cs.foldl confirm_comp s).comps ⊆ s.comps := by
  induction cs generalizing s with
  | nil => exact fun _ h => h
  | cons a t ih =>
    rw [List.foldl_cons]
    exact fun x hx => Finset.erase_subset a s.comps (ih _ hx)

theorem comps_foldl_comp_not_mem (cs : List String) (s : CandidateSets)
    (c : String) (hc : c ∈ cs) :
    c ∉ (cs.foldl confirm_comp s).comps := by
  induction cs generalizing s with
  | nil => simp at hc
  | cons a t ih =>
    rw [List.foldl_cons]
    rcases List.mem_cons.mp hc with rfl | htl
    · intro hmem
      exact Finset.not_mem_erase c s.comps
        (comps_foldl_comps_subset t (confirm_comp s c) hmem)
    · exact ih _ htl

theorem parse_confirm_releases_subset (ds : List (String × List String))
    (s : CandidateSets) :
    (parse_release_confirm s ds).releases ⊆ s.releases := by
  induction ds generalizing s with
  | nil => exact fun _ h => h
  | cons rc tl ih =>
    intro x hx
    have hstep := ih (rc.2.foldl confirm_comp (confirm_release s rc.1)) hx
    rw [comps_foldl_releases] at hstep
    exact Finset.erase_subset rc.1 s.releases hstep

theorem parse_confirm_rel_not_mem (ds : List (String × List String))
    (s : CandidateSets) (r : String) (h : r ∈ ds.map Prod.fst) :
    r ∉ (parse_release_confirm s ds).releases := by
  induction ds generalizing s with
  | nil => simp at h
  | cons rc tl ih =>
    rcases List.mem_cons.mp h with heq | htl
    · intro hmem
      have := parse_confirm_releases_subset tl
        (rc.2.foldl confirm_comp (confirm_release s rc.1)) hmem
      rw [comps_foldl_releases] at this
      rw [heq] at this
      exact Finset.not_mem_erase rc.1 s.releases this
    · exact ih _ htl

theorem parse_confirm_comps_subset (ds : List (String × List String))
    (s : CandidateSets) :
    (parse_release_confirm s ds).comps ⊆ s.comps := by
  induction ds generalizing s with
  | nil => exact fun _ h => h
  | cons rc tl ih =>
    intro x hx
    have hstep := ih (rc.2.foldl confirm_comp (confirm_release s rc.1)) hx
    exact comps_foldl_comps_subset rc.2 (confirm_release s rc.1) hstep

theorem parse_confirm_comp_not_mem (ds : List (String × List String))
    (s : CandidateSets) (c : String) (h : ∃ rc ∈ ds, c ∈ rc.2) :
    c ∉ (parse_release_confirm s ds).comps := by
  induction ds generalizing s with
  | nil => simp at h
  | cons rc0 tl ih =>
    obtain ⟨rc, hrc, hc⟩ := h
    rcases List.mem_cons.mp hrc with heq | htl
    · intro hmem
      have := parse_confirm_comps_subset tl
        (rc0.2.foldl confirm_comp (confirm_release s rc0.1)) hmem
      subst heq
      exact comps_foldl_comp_not_mem rc.2 (confirm_release s rc.1) c hc this
    · exact ih _ ⟨rc, htl, hc⟩

theorem orphan_removed_subset (fails : String → Bool)
    (relIds compIds debIds : List String) :
    (∀ x ∈ (orphan_process fails relIds compIds debIds).1.1, x ∈ relIds) ∧
    (∀ x ∈ (orphan_process fails relIds compIds debIds).1.2.1, x ∈ compIds) := by
  unfold orphan_process
  rw [remove_units_loop_eq, remove_units_loop_eq, remove_units_loop_eq]
  constructor <;> intro x hx <;>
    by_cases h1 : relIds.any fails = true <;>
    by_cases h2 : compIds.any fails = true <;>
    simp only [h1, h2, Bool.false_eq_true, if_true, if_false] at hx <;>
    first
      | exact (List.takeWhile_sublist _).subset hx
      | exact hx
      | simp at hx

/-- C5: every release id and component id confirmed (popped) during
release parsing is absent from its removal-candidate set from that point
on, so the orphan-removal stage — run on any later state `t` whose
candidate sets only shrank further, over any iteration order drawn from
those sets — never deletes a confirmed release or component, regardless of
where the orphan loops stop. -/
theorem c5_confirmed_not_deleted (s : CandidateSets) (ds : List (String × List String))
    (t : CandidateSets) (fails : String → Bool)
    (relOrder compOrder debOrder : List String)
    (ht_rel : t.releases ⊆ (parse_release_confirm s ds).releases)
    (ht_comp : t.comps ⊆ (parse_release_confirm s ds).comps)
    (hrelo : ∀ i ∈ relOrder, i ∈ t.releases)
    (hcompo : ∀ i ∈ compOrder, i ∈ t.comps) :
    (∀ r ∈ ds.map Prod.fst,
       r ∉ (orphan_process fails relOrder compOrder debOrder).1.1)
    ∧ (∀ rc ∈ ds, ∀ c ∈ rc.2,
       c ∉ (orphan_process fails relOrder compOrder debOrder).1.2.1) := by
  constructor
  · intro r hr hmem
    have h1 := (orphan_removed_subset fails relOrder compOrder debOrder).1 r hmem
    exact parse_confirm_rel_not_mem ds s r hr (ht_rel (hrelo r h1))
  · intro rc hrc c hc hmem
    have h1 := (orphan_removed_subset fails relOrder compOrder debOrder).2 c hmem
    exact parse_confirm_comp_not_mem ds s c ⟨rc, hrc, hc⟩ (ht_comp (hcompo c h1))

/-- C5 witness: a sync confirming release `r1` and component `c1` does not
delete them when the orphan stage removes the remaining candidates. -/
theorem c5_confirmed_not_deleted_witness :
    "r1" ∉ (orphan_process (fun _ => false) ["r2"] ["c3"] []).1.1
    ∧ "c1" ∉ (orphan_process (fun _ => false) ["r2"] ["c3"] []).1.2.1 :=
  ⟨(c5_confirmed_not_deleted ⟨∅, {"c1", "c3"}, {"r1", "r2"}⟩ [("r1", ["c1"])] ⟨∅, {"c3"}, {"r2"}⟩
      (fun _ => false) ["r2"] ["c3"] [] (by decide) (by decide) (by decide)
      (by decide)).1 "r1" (by decide),
   (c5_confirmed_not_deleted ⟨∅, {"c1", "c3"}, {"r1", "r2"}⟩ [("r1", ["c1"])] ⟨∅, {"c3"}, {"r2"}⟩
      (fun _ => false) ["r2"] ["c3"] [] (by decide) (by decide) (by decide)
      (by decide)).2 ("r1", ["c1"]) (by decide) "c1" (by decide)⟩

/-! ## C7: GPG allowed-fingerprint handling -/

theorem fetch_mono (db : String → Option String) (l : List String)
    (shared : KeyStore) :
    ∀ kv ∈ shared.keys, kv ∈ (fetch_allowed_keys db shared l).keys := by
  induction l generalizing shared with
  | nil => exact fun kv h => h
  | cons f tl ih =>
    intro kv hkv
    unfold fetch_allowed_keys
    rw [List.foldl_cons]
    apply ih
    dsimp only
    by_cases hp : stripSpaces f ∈ shared.keys.map Prod.fst
    · simp [hp, hkv]
    · simp only [hp, if_false]
      unfold recv_key
      cases db (stripSpaces f) with
      | none => exact hkv
      | some m => simp [hkv]

/-! ## C7: GPG allowed-fingerprint handling -/

theorem fetch_mono_fst (db : String → Option String) (l : List String)
    (shared : KeyStore) (x : String) (hx : x ∈ shared.keys.map Prod.fst) :
    x ∈ (fetch_allowed_keys db shared l).keys.map Prod.fst := by
  obtain ⟨kv, hkv, hfst⟩ := List.mem_map.mp hx
  exact List.mem_map.mpr ⟨kv, fetch_mono db l shared kv hkv, hfst⟩

theorem fetch_present (db : String → Option String) (l : List String)
    (shared : KeyStore) (f : String) (hf : f ∈ l)
    (hdb : (db (stripSpaces f)).isSome) :
    stripSpaces f ∈ (fetch_allowed_keys db shared l).keys.map Prod.fst := by
  induction l generalizing shared with
  | nil => simp at hf
  | cons f0 tl ih =>
    unfold fetch_allowed_keys
    rw [List.foldl_cons]
    rcases List.mem_cons.mp hf with rfl | htl
    · show stripSpaces f ∈ (fetch_allowed_keys db _ tl).keys.map Prod.fst
      by_cases hp : stripSpaces f ∈ shared.keys.map Prod.fst
      · apply fetch_mono_fst
        rw [if_pos hp]
        exact hp
      · apply fetch_mono_fst
        simp only [hp, if_false]
        unfold recv_key
        cases hdbv : db (stripSpaces f) with
        | none => rw [hdbv] at hdb; simp at hdb
        | some m => simp
    · exact ih _ htl

theorem export_keys_mem (store : KeyStore) (fprs : List String) (f mat : String)
    (hf : f ∈ fprs) (hmem : (f, mat) ∈ store.keys) :
    mat ∈ export_keys store fprs := by
  unfold export_keys
  exact List.mem_map.mpr ⟨(f, mat), List.mem_filter.mpr ⟨hmem, by simpa using hf⟩, rfl⟩

/-- C7 (amended): for every configured allowed fingerprint, the
whitespace-stripped form is used for the shared-store presence check and
the keyserver fetch (a fingerprint the keyserver knows ends up in the
shared store under its normalized form, and existing keys are kept), but
the export into the ephemeral store is invoked with the ORIGINAL
configured strings — so the claim's "export the key material matching the
normalized fingerprint" holds exactly for fingerprints with no internal
whitespace (last conjunct), and fails otherwise (see the
counterexample). -/
theorem c7_allowed_keys_normalization (db : String → Option String) (shared : KeyStore)
    (cfg : Option String) :
    (∀ f ∈ (split_or_none cfg).getD [], (db (stripSpaces f)).isSome →
       stripSpaces f ∈ (process_allowed_keys db shared cfg).1.keys.map Prod.fst)
    ∧ (process_allowed_keys db shared cfg).2 =
        export_keys (process_allowed_keys db shared cfg).1
          ((split_or_none cfg).getD [])
    ∧ (∀ f ∈ (split_or_none cfg).getD [], ∀ mat,
        (f, mat) ∈ (process_allowed_keys db shared cfg).1.keys →
        mat ∈ (process_allowed_keys db shared cfg).2)
    ∧ (∀ f ∈ (split_or_none cfg).getD [], stripSpaces f = f → (db f).isSome →
        ∃ mat, (f, mat) ∈ (process_allowed_keys db shared cfg).1.keys ∧
          mat ∈ (process_allowed_keys db shared cfg).2) := by
  refine ⟨?_, rfl, ?_, ?_⟩
  · intro f hf hdb
    exact fetch_present db _ shared f hf hdb
  · intro f hf mat hmem
    exact export_keys_mem _ _ f mat hf hmem
  · intro f hf hnorm hdb
    have hpres : f ∈ (process_allowed_keys db shared cfg).1.keys.map Prod.fst := by
      have := fetch_present db _ shared f hf (by rw [hnorm]; exact hdb)
      rw [hnorm] at this
      exact this
    obtain ⟨kv, hkv, hfst⟩ := List.mem_map.mp hpres
    refine ⟨kv.2, ?_, ?_⟩
    · rw [← hfst]
      exact hkv
    · exact export_keys_mem _ _ f kv.2 hf (by rw [← hfst]; exact hkv)

/-- C7 counterexample to the claim as stated: configured fingerprint
`"AA BB"` is normalized to `"AABB"` for the fetch — the key lands in the
shared store under `"AABB"` — yet `export_keys` is called with the
original `"AA BB"`, so nothing is imported into the ephemeral store. -/
theorem c7_allowed_keys_counterexample :
    (process_allowed_keys (fun f => if f = "AABB" then some "KEYMAT" else none)
        ⟨[]⟩ (some "AA BB")).1.keys = [("AABB", "KEYMAT")]
    ∧ (process_allowed_keys (fun f => if f = "AABB" then some "KEYMAT" else none)
        ⟨[]⟩ (some "AA BB")).2 = [] := by decide

/-- C7 witness: for a whitespace-free configured fingerprint the fetched
key material is exported and imported as the claim states. -/
theorem c7_allowed_keys_normalization_witness :
    ∃ mat, ("AABB", mat) ∈ (process_allowed_keys
        (fun f => if f = "AABB" then some "KEYMAT" else none)
        ⟨[]⟩ (some "AABB")).1.keys ∧
      mat ∈ (process_allowed_keys
        (fun f => if f = "AABB" then some "KEYMAT" else none)
        ⟨[]⟩ (some "AABB")).2 :=
  (c7_allowed_keys_normalization (fun f => if f = "AABB" then some "KEYMAT" else none) ⟨[]⟩
      (some "AABB")).2.2.2 "AABB" (by decide) (by decide) (by decide)

/-! ## C9: `generate_internal_storage_path` -/

theorem hexChar_ne_slash (n : Nat) : hexChar n ≠ '/' := by
  by_cases h : n < 16
  · interval_cases n <;> decide
  · unfold hexChar
    rw [List.getD_eq_default]
    · decide
    · simpa using Nat.le_of_not_lt h

theorem md5_hexdigest_chars (s : String) :
    ∀ c ∈ (md5_hexdigest s).data, c ≠ '/' := by
  intro c hc
  unfold md5_hexdigest at hc
  rw [show (String.mk ((md5_digest_bytes (strBytes s)).flatMap hexByte)).data =
    (md5_digest_bytes (strBytes s)).flatMap hexByte from rfl] at hc
  rw [List.mem_flatMap] at hc
  obtain ⟨b, hb, hcb⟩ := hc
  unfold hexByte at hcb
  rcases List.mem_cons.mp hcb with rfl | hcb2
  · exact hexChar_ne_slash _
  · rcases List.mem_cons.mp hcb2 with rfl | hcb3
    · exact hexChar_ne_slash _
    · simp at hcb3

theorem md5_hexdigest_length (s : String) :
    (md5_hexdigest s).data.length = 32 := by
  simp [md5_hexdigest, md5_digest_bytes, wordLE, hexByte]

/-- C9: for every filename, `generate_internal_storage_path` returns the
two-level path `xx/yy` where `xx` are the first two and `yy` the next two
hex characters of the MD5 of the filename (the MD5 here is the full
RFC 1321 algorithm; see the test-vector lemmas above), and the download
destination directory depends only on the URL's base filename, so files
with identical base names always map to the same shard. -/
theorem c9_storage_path_sharding (filename wdir : String) :
    generate_internal_storage_path filename =
      str_take (md5_hexdigest filename) 2 ++ "/" ++
        str_take (str_drop (md5_hexdigest filename) 2) 2
    ∧ ∀ u₁ u₂ : String, os_path_basename u₁ = os_path_basename u₂ →
        package_dest_dir wdir u₁ = package_dest_dir wdir u₂ := by
  constructor
  · unfold generate_internal_storage_path
    rw [os_path_join2_eq]
    · rw [Bool.eq_false_iff]
      intro hc
      rw [str_startsWith_slash] at hc
      have hmem0 : '/' ∈ (str_take (str_drop (md5_hexdigest filename) 2) 2).data :=
        List.mem_of_mem_head? hc
      have h1 : (str_take (str_drop (md5_hexdigest filename) 2) 2).data =
          ((md5_hexdigest filename).data.drop 2).take 2 := rfl
      rw [h1] at hmem0
      exact md5_hexdigest_chars filename '/'
        (List.drop_subset 2 _ (List.take_subset 2 _ hmem0)) rfl
    · intro hemp
      have hlen := md5_hexdigest_length filename
      rw [String.ext_iff] at hemp
      unfold str_take at hemp
      simp at hemp
      rw [hemp] at hlen
      simp at hlen
    · rw [Bool.eq_false_iff]
      intro hc
      rw [str_endsWith_slash] at hc
      have hmem0 : '/' ∈ (str_take (md5_hexdigest filename) 2).data :=
        List.mem_of_mem_getLast? hc
      have h1 : (str_take (md5_hexdigest filename) 2).data =
          (md5_hexdigest filename).data.take 2 := rfl
      rw [h1] at hmem0
      exact md5_hexdigest_chars filename '/' (List.take_subset 2 _ hmem0) rfl
  · intro u₁ u₂ h
    unfold package_dest_dir
    rw [h]

theorem md5_rfc_vector_empty :
    md5_hexdigest "" = "d41d8cd98f00b204e9800998ecf8427e" := by decide

theorem md5_rfc_vector_abc :
    md5_hexdigest "abc" = "900150983cd24fb0d6963f7d28e17f72" := by decide

theorem generate_internal_storage_path_example :
    generate_internal_storage_path "foo.deb" = "16/72" := by decide

/-- C9 witness: the shard of `foo.deb` and equal shards for two URLs
sharing the base name `p.deb`. -/
theorem c9_storage_path_sharding_witness :
    generate_internal_storage_path "foo.deb" =
      str_take (md5_hexdigest "foo.deb") 2 ++ "/" ++
        str_take (str_drop (md5_hexdigest "foo.deb") 2) 2
    ∧ package_dest_dir "/w" "a/p.deb" = package_dest_dir "/w" "b/p.deb" :=
  ⟨(c9_storage_path_sharding "foo.deb" "/w").1,
   (c9_storage_path_sharding "foo.deb" "/w").2 "a/p.deb" "b/p.deb" (by decide)⟩

/-! ## C2: deduplication by sha256 in `ParsePackagesStep` -/

theorem assocFind_cons (k : String) (u : DebPackage) (l : List (String × DebPackage))
    (D : String) :
    assocFind ((k, u) :: l) D = if k = D then some u else assocFind l D := by
  unfold assocFind
  rw [List.find?_cons]
  by_cases h : k = D <;> simp [h]

theorem assocFind_append_single (l : List (String × DebPackage)) (k : String)
    (u : DebPackage) (D : String) :
    assocFind (l ++ [(k, u)]) D =
      match assocFind l D with
      | some v => some v
      | none => if k = D then some u else none := by
  induction l with
  | nil =>
    simp only [List.nil_append]
    rw [assocFind_cons]
    unfold assocFind
    by_cases h : k = D <;> simp [h]
  | cons hd tl ih =>
    rw [List.cons_append, assocFind_cons, assocFind_cons]
    by_cases h : hd.1 = D <;> simp [h, ih]

theorem assocFind_eq_none_iff (l : List (String × DebPackage)) (D : String) :
    assocFind l D = none ↔ D ∉ l.map Prod.fst := by
  unfold assocFind
  rw [Option.map_eq_none', List.find?_eq_none]
  constructor
  · intro h hmem
    obtain ⟨p, hp, hfst⟩ := List.mem_map.mp hmem
    exact absurd (by simpa using hfst) (by simpa using h p hp)
  · intro h p hp
    simp only [decide_eq_true_eq]
    intro hfst
    exact h (List.mem_map.mpr ⟨p, hp, hfst⟩)

theorem fp_checksum {p : Stanza} {u : DebPackage}
    (h : from_packages_paragraph p = some u) : p.SHA256 = some u.checksum := by
  unfold from_packages_paragraph at h
  cases hn : p.pkg_name <;> cases hv : p.Version <;> cases ha : p.Architecture <;>
    cases hf : p.Filename <;> cases hs : p.SHA256 <;>
    rw [hn, hv, ha, hf, hs] at h <;> simp_all
  rw [← h]

theorem fp_filename_isSome {p : Stanza} {u : DebPackage}
    (h : from_packages_paragraph p = some u) : p.Filename.isSome := by
  unfold from_packages_paragraph at h
  cases hn : p.pkg_name <;> cases hv : p.Version <;> cases ha : p.Architecture <;>
    cases hf : p.Filename <;> cases hs : p.SHA256 <;>
    rw [hn, hv, ha, hf, hs] at h <;> simp_all

theorem parse_stanza_units_lookup (st : ParseState) (d c : String) (p : Stanza)
    (D : String) :
    assocFind (parse_stanza st d c p).units D =
      match assocFind st.units D with
      | some u => some u
      | none => if p.SHA256 = some D then from_packages_paragraph p else none := by
  cases hs : p.SHA256 with
  | none =>
    unfold parse_stanza
    rw [hs]
    cases hfD : assocFind st.units D <;> simp [hs]
  | some ck =>
    cases hf : p.Filename with
    | none =>
      unfold parse_stanza
      rw [hs, hf]
      cases hfD : assocFind st.units D with
      | some u => simp
      | none =>
        dsimp only
        by_cases hD : ck = D
        · subst hD
          have : from_packages_paragraph p = none := by
            unfold from_packages_paragraph
            rw [hf]
            cases p.pkg_name <;> cases p.Version <;> cases p.Architecture <;> rfl
          simp [hs, this]
        · simp [hs, hD, show ¬ (some ck = some D) from fun hh => hD (by injection hh)]
    | some fname =>
      unfold parse_stanza
      rw [hs, hf]
      dsimp only
      cases hfind : assocFind st.units ck with
      | some u0 =>
        dsimp only
        cases hfD : assocFind st.units D with
        | some u => simp
        | none =>
          have hD : ck ≠ D := by
            intro hh
            rw [hh, hfD] at hfind
            exact absurd hfind (by simp)
          simp [hs, show ¬ (some ck = some D) from fun hh => hD (by injection hh)]
      | none =>
        cases hfp : from_packages_paragraph p with
        | none =>
          dsimp only
          cases hfD : assocFind st.units D with
          | some u => simp
          | none =>
            by_cases hD : ck = D
            · subst hD
              simp [hs, hfp]
            · simp [hs, hfp, show ¬ (some ck = some D) from fun hh => hD (by injection hh)]
        | some u1 =>
          dsimp only
          rw [assocFind_append_single]
          cases hfD : assocFind st.units D with
          | some u => simp
          | none =>
            by_cases hD : ck = D
            · subst hD
              simp [hs, hfp]
            · simp [hs, hfp, hD, show ¬ (some ck = some D) from fun hh => hD (by injection hh)]

theorem parse_stanza_preserves_inv (st : ParseState) (d c : String) (p : Stanza)
    (hinv : UnitsInv st.units) : UnitsInv (parse_stanza st d c p).units := by
  cases hs : p.SHA256 with
  | none => unfold parse_stanza; rw [hs]; exact hinv
  | some ck =>
    cases hf : p.Filename with
    | none => unfold parse_stanza; rw [hs, hf]; exact hinv
    | some fname =>
      unfold parse_stanza
      rw [hs, hf]
      dsimp only
      cases hfind : assocFind st.units ck with
      | some u0 => exact hinv
      | none =>
        cases hfp : from_packages_paragraph p with
        | none => exact hinv
        | some u1 =>
          dsimp only
          obtain ⟨hnd, hck⟩ := hinv
          constructor
          · rw [List.map_append]
            rw [List.nodup_append]
            refine ⟨hnd, by simp, ?_⟩
            intro x hx hx2
            simp at hx2
            rw [hx2] at hx
            exact (assocFind_eq_none_iff st.units _).mp hfind hx
          · intro q hq
            rcases List.mem_append.mp hq with hq1 | hq2
            · exact hck q hq1
            · simp at hq2
              subst hq2
              have := fp_checksum hfp
              rw [hs] at this
              injection this with hh
              exact hh.symm

theorem parse_entries_units_lookup (es : List (String × String × Stanza))
    (st : ParseState) (D : String) :
    assocFind (parse_entries st es).units D =
      match assocFind st.units D with
      | some u => some u
      | none => firstUnitFor es D := by
  induction es generalizing st with
  | nil =>
    unfold parse_entries firstUnitFor
    cases assocFind st.units D <;> rfl
  | cons e tl ih =>
    obtain ⟨d, c, p⟩ := e
    unfold parse_entries
    rw [ih, parse_stanza_units_lookup]
    unfold firstUnitFor
    rw [List.findSome?_cons]
    cases hfD : assocFind st.units D with
    | some u => simp
    | none =>
      dsimp only
      by_cases hD : p.SHA256 = some D
      · simp only [hD, if_true]
        cases hfp : from_packages_paragraph p <;> simp
      · simp only [hD, if_false]

theorem parse_entries_preserves_inv (es : List (String × String × Stanza))
    (st : ParseState) (hinv : UnitsInv st.units) :
    UnitsInv (parse_entries st es).units := by
  induction es generalizing st with
  | nil => exact hinv
  | cons e tl ih =>
    obtain ⟨d, c, p⟩ := e
    unfold parse_entries
    exact ih _ (parse_stanza_preserves_inv st d c p hinv)

theorem parse_entries_lookup_persist (es : List (String × String × Stanza))
    (st : ParseState) (D : String) (u : DebPackage)
    (h : assocFind st.units D = some u) :
    assocFind (parse_entries st es).units D = some u := by
  rw [parse_entries_units_lookup, h]

theorem parse_stanza_comp_mono (st : ParseState) (d' c' : String) (p : Stanza)
    (d c : String) (k : DebUnitKey)
    (hk : k ∈ st.component_packages d c) :
    k ∈ (parse_stanza st d' c' p).component_packages d c := by
  cases hs : p.SHA256 with
  | none => unfold parse_stanza; rw [hs]; exact hk
  | some ck =>
    cases hf : p.Filename with
    | none => unfold parse_stanza; rw [hs, hf]; exact hk
    | some fname =>
      unfold parse_stanza
      rw [hs, hf]
      dsimp only
      cases hfind : assocFind st.units ck with
      | some u0 =>
        dsimp only
        unfold append_comp_pkg
        by_cases hcond : d = d' ∧ c = os_path_basename c'
        · rw [if_pos hcond]
          exact List.mem_append_left _ hk
        · rw [if_neg hcond]
          exact hk
      | none =>
        cases hfp : from_packages_paragraph p with
        | none => exact hk
        | some u1 =>
          dsimp only
          unfold append_comp_pkg
          by_cases hcond : d = d' ∧ c = os_path_basename c'
          · rw [if_pos hcond]
            exact List.mem_append_left _ hk
          · rw [if_neg hcond]
            exact hk

theorem parse_entries_comp_mono (es : List (String × String × Stanza))
    (st : ParseState) (d c : String) (k : DebUnitKey)
    (hk : k ∈ st.component_packages d c) :
    k ∈ (parse_entries st es).component_packages d c := by
  induction es generalizing st with
  | nil => exact hk
  | cons e tl ih =>
    obtain ⟨d1, c1, p⟩ := e
    unfold parse_entries
    exact ih _ (parse_stanza_comp_mono st d1 c1 p d c k hk)

theorem units_filter_of_inv (l : List (String × DebPackage)) (D : String)
    (hinv : UnitsInv l) :
    (l.map Prod.snd).filter (fun x => x.checksum = D) =
      match assocFind l D with
      | some u => [u]
      | none => [] := by
  induction l with
  | nil => rfl
  | cons hd tl ih =>
    obtain ⟨k, u⟩ := hd
    obtain ⟨hnd, hck⟩ := hinv
    have hu : u.checksum = k := hck (k, u) (List.mem_cons_self _ _)
    have hknotin : k ∉ tl.map Prod.fst := by
      rw [List.map_cons] at hnd
      exact (List.nodup_cons.mp hnd).1
    have hinvtl : UnitsInv tl :=
      ⟨(List.nodup_cons.mp (by rw [List.map_cons] at hnd; exact hnd)).2,
       fun q hq => hck q (List.mem_cons_of_mem _ hq)⟩
    rw [List.map_cons, List.filter_cons, assocFind_cons]
    by_cases hD : k = D
    · subst hD
      have htl : (tl.map Prod.snd).filter (fun x => decide (x.checksum = k)) = [] := by
        rw [List.filter_eq_nil_iff]
        intro x hx
        obtain ⟨q, hq, hsnd⟩ := List.mem_map.mp hx
        have hq2 := hinvtl.2 q hq
        rw [hsnd] at hq2
        simp only [decide_eq_true_eq]
        intro hxk
        rw [hxk] at hq2
        exact hknotin (hq2 ▸ List.mem_map.mpr ⟨q, hq, rfl⟩)
      simp [hu, htl]
    · have hdec : (decide (u.checksum = D)) = false := by
        simp [hu, hD]
      simp only [hdec, Bool.false_eq_true, if_false, if_neg hD]
      exact ih hinvtl

theorem parse_stanza_self_mem (st : ParseState) (d c : String) (p : Stanza)
    (D : String) (u1 : DebPackage) (hs : p.SHA256 = some D)
    (hfp : from_packages_paragraph p = some u1) :
    ∃ w, assocFind (parse_stanza st d c p).units D = some w ∧
      w.unit_key ∈ (parse_stanza st d c p).component_packages d
        (os_path_basename c) := by
  obtain ⟨fname, hf⟩ := Option.isSome_iff_exists.mp (fp_filename_isSome hfp)
  unfold parse_stanza
  rw [hs, hf]
  dsimp only
  cases hfind : assocFind st.units D with
  | some u0 =>
    refine ⟨u0, hfind, ?_⟩
    dsimp only
    unfold append_comp_pkg
    rw [if_pos ⟨rfl, rfl⟩]
    exact List.mem_append_right _ (by simp)
  | none =>
    rw [hfp]
    dsimp only
    refine ⟨u1, ?_, ?_⟩
    · rw [assocFind_append_single, hfind]
      simp
    · unfold append_comp_pkg
      rw [if_pos ⟨rfl, rfl⟩]
      exact List.mem_append_right _ (by simp)

theorem mem_comp_of_entry (es : List (String × String × Stanza))
    (st : ParseState) (d c : String) (p : Stanza) (D : String) (u : DebPackage)
    (hmem : (d, c, p) ∈ es) (hs : p.SHA256 = some D)
    (hval : (from_packages_paragraph p).isSome)
    (hlook : assocFind (parse_entries st es).units D = some u) :
    u.unit_key ∈ (parse_entries st es).component_packages d
      (os_path_basename c) := by
  induction es generalizing st with
  | nil => simp at hmem
  | cons e0 tl ih =>
    rcases List.mem_cons.mp hmem with heq | htl
    · subst heq
      unfold parse_entries at hlook ⊢
      obtain ⟨u1, hfp⟩ := Option.isSome_iff_exists.mp hval
      obtain ⟨w, hwl, hwm⟩ := parse_stanza_self_mem st d c p D u1 hs hfp
      have hpers := parse_entries_lookup_persist tl _ D w hwl
      rw [hpers] at hlook
      injection hlook with hwu
      subst hwu
      exact parse_entries_comp_mono tl _ d (os_path_basename c) w.unit_key hwm
    · unfold parse_entries at hlook ⊢
      obtain ⟨d0, c0, p0⟩ := e0
      exact ih _ htl hlook

theorem firstUnitFor_isSome (es : List (String × String × Stanza)) (D : String)
    (hvalid : ∀ e ∈ es, e.2.2.SHA256 = some D →
      (from_packages_paragraph e.2.2).isSome)
    (hex : ∃ e ∈ es, e.2.2.SHA256 = some D) :
    (firstUnitFor es D).isSome := by
  induction es with
  | nil => simp at hex
  | cons e0 tl ih =>
    unfold firstUnitFor
    rw [List.findSome?_cons]
    by_cases hD : e0.2.2.SHA256 = some D
    · simp only [hD, if_true]
      obtain ⟨u1, hfp⟩ := Option.isSome_iff_exists.mp
        (hvalid e0 (List.mem_cons_self _ _) hD)
      rw [hfp]
      simp
    · simp only [hD, if_false]
      obtain ⟨e, hetl, hesha⟩ := hex
      rcases List.mem_cons.mp hetl with heq | htl
      · exact absurd (heq ▸ hesha) hD
      · exact ih (fun e2 he2 => hvalid e2 (List.mem_cons_of_mem _ he2))
          ⟨e, htl, hesha⟩

/-- C2: for a run of `ParsePackagesStep.process_main` in which every stanza
declaring digest `D` parses successfully, exactly one `PackageUnit` exists
for `D` — it is the unit constructed from the first stanza declaring `D`
(`firstUnitFor`), the available-unit set contains exactly one unit with
that checksum, and that unit's key is appended to the accumulated
membership list of every `(distribution, component)` whose index listed a
stanza with digest `D`. -/
theorem c2_sha256_dedup (dists : List (String × List ComponentArch)) (D : String)
    (hvalid : ∀ e ∈ entries_of dists, e.2.2.SHA256 = some D →
      (from_packages_paragraph e.2.2).isSome)
    (hex : ∃ e ∈ entries_of dists, e.2.2.SHA256 = some D) :
    ∃ u, firstUnitFor (entries_of dists) D = some u ∧
      (available_units (run_parse_packages dists)).filter
        (fun x => x.checksum = D) = [u] ∧
      ∀ e ∈ entries_of dists, e.2.2.SHA256 = some D →
        u.unit_key ∈ (run_parse_packages dists).component_packages e.1
          (os_path_basename e.2.1) := by
  obtain ⟨u, hfu⟩ := Option.isSome_iff_exists.mp
    (firstUnitFor_isSome _ D hvalid hex)
  have hlook : assocFind (run_parse_packages dists).units D = some u := by
    unfold run_parse_packages
    rw [parse_entries_units_lookup]
    rw [show assocFind initParseState.units D = none from rfl]
    exact hfu
  have hinv : UnitsInv (run_parse_packages dists).units := by
    unfold run_parse_packages
    refine parse_entries_preserves_inv _ _ ⟨?_, ?_⟩ <;> simp [initParseState]
  refine ⟨u, hfu, ?_, ?_⟩
  · show ((run_parse_packages dists).units.map Prod.snd).filter
      (fun x => x.checksum = D) = [u]
    rw [units_filter_of_inv _ D hinv, hlook]
  · intro e he hesha
    obtain ⟨d, c, p⟩ := e
    exact mem_comp_of_entry _ initParseState d c p D u he hesha
      (hvalid (d, c, p) he hesha) hlook

/-- C2 witness: the spec's own scenario — two components of one
distribution both list a stanza with `SHA256 = 00aabb`; one unit results,
referenced by both components. -/
theorem c2_sha256_dedup_witness :
    ∃ u, firstUnitFor (entries_of [("stable",
        [⟨"main", [⟨some "00aabb", some "pool/a.deb", some "a", some "1.0",
            some "amd64", none, none⟩]⟩,
         ⟨"contrib", [⟨some "00aabb", some "pool/a.deb", some "a", some "1.0",
            some "amd64", none, none⟩]⟩])]) "00aabb" = some u ∧
      (available_units (run_parse_packages [("stable",
        [⟨"main", [⟨some "00aabb", some "pool/a.deb", some "a", some "1.0",
            some "amd64", none, none⟩]⟩,
         ⟨"contrib", [⟨some "00aabb", some "pool/a.deb", some "a", some "1.0",
            some "amd64", none, none⟩]⟩])])).filter
        (fun x => x.checksum = "00aabb") = [u] ∧
      ∀ e ∈ entries_of [("stable",
        [⟨"main", [⟨some "00aabb", some "pool/a.deb", some "a", some "1.0",
            some "amd64", none, none⟩]⟩,
         ⟨"contrib", [⟨some "00aabb", some "pool/a.deb", some "a", some "1.0",
            some "amd64", none, none⟩]⟩])], e.2.2.SHA256 = some "00aabb" →
        u.unit_key ∈ (run_parse_packages [("stable",
        [⟨"main", [⟨some "00aabb", some "pool/a.deb", some "a", some "1.0",
            some "amd64", none, none⟩]⟩,
         ⟨"contrib", [⟨some "00aabb", some "pool/a.deb", some "a", some "1.0",
            some "amd64", none, none⟩]⟩])]).component_packages e.1
          (os_path_basename e.2.1) :=
  c2_sha256_dedup [("stable",
    [⟨"main", [⟨some "00aabb", some "pool/a.deb", some "a", some "1.0",
        some "amd64", none, none⟩]⟩,
     ⟨"contrib", [⟨some "00aabb", some "pool/a.deb", some "a", some "1.0",
        some "amd64", none, none⟩]⟩])] "00aabb" (by decide) (by decide)
